import Mathlib

/-!
Verification development for the claudescope analytics pipeline
(backend/app/services: data_reader, antipattern_engine, health_scorer,
good_prompts_engine).

Modelling conventions:
* Python `str` values are modelled as `List Char` (`Str`), one entry per
  Unicode code point, matching Python's indexing/length semantics.
* Python `float` arithmetic is modelled exactly over `ℚ`.  Every numeric
  value arising in the scorers is a small multiple of 1/20, where IEEE-754
  doubles and exact rationals agree on the comparisons performed.
* `datetime` values are modelled by their instant: the POSIX epoch offset
  in seconds as a `ℚ`.  All datetimes produced by the code are
  timezone-aware; comparison of aware datetimes is comparison of instants.
* Regular-expression tests from the source are translated into executable
  character-list matchers.  `\w` is modelled as ASCII `[A-Za-z0-9_]` and
  case mapping as ASCII case mapping (the inputs exercised by the claims
  are ASCII; CJK literals occurring in the vocabularies are matched
  verbatim, unaffected by case mapping).
* `hashlib.md5(content)[:12]` match ids are modelled by the digest
  preimage `content` itself (the id is used for identification only).
-/

namespace Claudescope

/-- Python `str`, as a list of Unicode code points. -/
abbrev Str := List Char

/-! ## Python string primitives -/

/-- Python `str.strip()` whitespace set (ASCII part; sufficient for the
texts handled here). -/
def isPyWs (c : Char) : Bool :=
  c = ' ' || c = '\t' || c = '\n' || c = '\r' || c = '\x0b' || c = '\x0c'

/-- Python `str.lstrip()`. -/
def pyLStrip (s : Str) : Str := s.dropWhile isPyWs

/-- Python `str.rstrip()`. -/
def pyRStrip (s : Str) : Str := (s.reverse.dropWhile isPyWs).reverse

/-- Python `str.strip()`. -/
def pyStrip (s : Str) : Str := pyRStrip (pyLStrip s)

/-- Python `str.lower()` (ASCII case mapping). -/
def lowerStr (s : Str) : Str := s.map Char.toLower

/-- Python `str.upper()` (ASCII case mapping). -/
def upperStr (s : Str) : Str := s.map Char.toUpper

/-- Python `needle in hay` substring test. -/
def containsSub (needle : Str) : Str → Bool
  | [] => needle.isEmpty
  | c :: rest => needle.isPrefixOf (c :: rest) || containsSub needle rest

/-- Run a matcher at every suffix of the text (models an unanchored
`re.search`). -/
def anySuffix (f : Str → Bool) : Str → Bool
  | [] => f []
  | c :: rest => f (c :: rest) || anySuffix f rest

/-- Python `str.startswith(w)`. -/
def startsWith (w : Str) (s : Str) : Bool := w.isPrefixOf s

/-- Python `str.endswith(w)` (via reversed lists). -/
def endsWith (w : Str) (s : Str) : Bool := w.reverse.isPrefixOf s.reverse

/-! ## Python `round` on exact rationals

Python `round` ties to even.  The code rounds IEEE doubles; every value it
rounds here is a multiple of 1/20, on which double rounding and exact
rational rounding agree. -/

/-- `round(y)` to an integer, ties to even. -/
def pyRoundEven (y : ℚ) : ℤ :=
  if y - ⌊y⌋ = 1 / 2 then (if Even ⌊y⌋ then ⌊y⌋ else ⌊y⌋ + 1) else round y

/-- `round(q, 1)`. -/
def pyRound1 (q : ℚ) : ℚ := (pyRoundEven (10 * q) : ℚ) / 10

/-- `f"{q:.0f}"` formatting used in issue strings. -/
def fmt0 (q : ℚ) : String := toString (pyRoundEven q)

/-- A single-quote character, as a string. -/
def sq : String := ⟨[Char.ofNat 39]⟩

/-! ## Data model (models/schemas.py) -/

/-- `Severity` enum. -/
inductive Severity
  | low | medium | high | critical
deriving DecidableEq

/-- `AntipatternType` enum. -/
inductive AntipatternType
  | toothpaste | rawPaste | vagueInstruction | contextExplosion
deriving DecidableEq

/-- `PromptCategory` enum. -/
inductive PromptCategory
  | codeGeneration | bugFix | codeReview | refactoring | testing
  | documentation | configSetup | gitOperations | fileOperations
  | searchExplore | extendedThinking | question | chineseLanguage | general
deriving DecidableEq

/-- `PromptData`.  The wall-clock `timestamp` is modelled by its instant
(seconds since the epoch, exact) together with the `utcoffset` of its
`tzinfo` in seconds (`tzOffset`): an aware datetime compares and sorts by
the instant alone, while `timestamp.isoformat()` renders the wall clock
plus the offset suffix, so the pair (instant, offset) determines the
isoformat string and vice versa. -/
structure PromptData where
  text : Str
  timestamp : ℚ
  tzOffset : Int := 0
  project : String
  sessionId : Option String := none
  charCount : Nat := 0
  hasCodeBlock : Bool := false
  hasThinkingTrigger : Bool := false
  thinkingTriggers : List Str := []
  hasImage : Bool := false
  categories : List PromptCategory := []
deriving DecidableEq

/-- `SessionData`. -/
structure SessionData where
  sessionId : String
  project : String
  prompts : List PromptData
  totalPrompts : Nat
  startTime : ℚ
  endTime : ℚ
  totalInputTokens : Nat := 0
  totalOutputTokens : Nat := 0
deriving DecidableEq

/-- `AntipatternMatch`.  `id` is the md5 preimage
`f"{timestamp.isoformat()}_{text[:50]}_{rule_name}"` (the truncated digest
itself is not modelled). -/
structure AntipatternMatch where
  id : Str
  type : AntipatternType
  severity : Severity
  promptExcerpt : Str
  timestamp : ℚ
  project : String
  sessionId : Option String := none
  confidence : ℚ
  explanation : String
  fixSuggestion : String
deriving DecidableEq

/-- `DimensionScore`. -/
structure DimensionScore where
  name : String
  score : ℚ
  weight : ℚ
  issues : List String
deriving DecidableEq

/-- `HealthReportResponse` (without the wall-clock `timestamp=datetime.now()`
field, which is outside the model). -/
structure HealthReportResponse where
  overallScore : ℚ
  grade : String
  dimensions : List DimensionScore
  totalPromptsAnalyzed : Nat
  periodDays : Int
  improvementSuggestions : List String
  trendVsLastWeek : Option ℚ := none
deriving DecidableEq

/-! ## HealthScorer (services/health_scorer.py) -/

/-- `HealthScorer.WEIGHTS`. -/
def weightOf (name : String) : ℚ :=
  if name = "clarity" then 0.30
  else if name = "completeness" then 0.25
  else if name = "efficiency" then 0.25
  else if name = "context_management" then 0.20
  else 0

/-- `HealthScorer.GRADE_THRESHOLDS`, in dict insertion order. -/
def GRADE_THRESHOLDS : List (String × ℚ) :=
  [("A", 85), ("B", 70), ("C", 55), ("D", 40), ("F", 0)]

/-- `HealthScorer._calculate_grade`: first grade whose threshold is met,
falling back to "F". -/
def calculateGrade (score : ℚ) : String :=
  match GRADE_THRESHOLDS.find? (fun gt => gt.2 ≤ score) with
  | some gt => gt.1
  | none => "F"

/-- Python truthiness of `Optional[str]`: `None` and `""` are falsy. -/
def truthyOptStr : Option String → Option String
  | some s => if s = "" then none else some s
  | none => none

/-- Count of antipattern matches of one type
(`sum(1 for ap in antipatterns if ap.type == t)`). -/
def countType (t : AntipatternType) (aps : List AntipatternMatch) : Nat :=
  aps.countP (fun ap => ap.type == t)

/-- `_score_clarity`: penalty `min(vague_count * 5, 40)` (0 when no match). -/
def clarityVaguePenalty (aps : List AntipatternMatch) : ℕ :=
  if 0 < countType .vagueInstruction aps then
    min (countType .vagueInstruction aps * 5) 40
  else 0

/-- `_score_clarity`: `avg_length`. -/
def avgPromptLength (prompts : List PromptData) : ℚ :=
  if prompts ≠ [] then
    ((prompts.map (fun p => (p.charCount : ℚ))).sum) / prompts.length
  else 0

/-- `_score_clarity`: short-average-length penalty. -/
def clarityLengthPenalty (prompts : List PromptData) : ℕ :=
  if avgPromptLength prompts < 30 then 20
  else if avgPromptLength prompts < 50 then 10
  else 0

/-- `HealthScorer._score_clarity`. -/
def scoreClarity (prompts : List PromptData) (aps : List AntipatternMatch) :
    DimensionScore :=
  let issues1 : List String :=
    if 0 < countType .vagueInstruction aps then
      [toString (countType .vagueInstruction aps) ++ " 个模糊指令"] else []
  let issues2 : List String :=
    if avgPromptLength prompts < 30 then
      ["平均 prompt 长度过短 (" ++ fmt0 (avgPromptLength prompts) ++ " 字)"]
    else if avgPromptLength prompts < 50 then
      ["平均 prompt 长度偏短 (" ++ fmt0 (avgPromptLength prompts) ++ " 字)"]
    else []
  { name := "clarity"
    score := max 0 (min 100 (100 - (clarityVaguePenalty aps : ℚ)
      - (clarityLengthPenalty prompts : ℚ)))
    weight := weightOf "clarity"
    issues := issues1 ++ issues2 }

/-- `_score_completeness`: penalty `min(raw_paste_count * 8, 50)`. -/
def completenessRawPastePenalty (aps : List AntipatternMatch) : ℕ :=
  if 0 < countType .rawPaste aps then min (countType .rawPaste aps * 8) 50
  else 0

/-- `_score_completeness`: penalty `min(toothpaste_count * 3, 30)`. -/
def completenessToothpastePenalty (aps : List AntipatternMatch) : ℕ :=
  if 0 < countType .toothpaste aps then min (countType .toothpaste aps * 3) 30
  else 0

/-- `HealthScorer._score_completeness`. -/
def scoreCompleteness (_prompts : List PromptData)
    (aps : List AntipatternMatch) : DimensionScore :=
  let issues1 : List String :=
    if 0 < countType .rawPaste aps then
      [toString (countType .rawPaste aps) ++ " 个缺少上下文的粘贴"] else []
  let issues2 : List String :=
    if 0 < countType .toothpaste aps then
      [toString (countType .toothpaste aps) ++ " 个碎片化 prompt"] else []
  { name := "completeness"
    score := max 0 (min 100 (100 - (completenessRawPastePenalty aps : ℚ)
      - (completenessToothpastePenalty aps : ℚ)))
    weight := weightOf "completeness"
    issues := issues1 ++ issues2 }

/-- `f"{q:.1f}"` formatting. -/
def fmt1 (q : ℚ) : String := toString (pyRound1 q)

/-- `f"{q:.0%}"` formatting. -/
def fmtPct0 (q : ℚ) : String := toString (pyRoundEven (q * 100)) ++ "%"

/-- `_score_efficiency`:
`sessions = set(p.session_id for p in prompts if p.session_id)`
(as a duplicate-free list; only membership/size are used). -/
def efficiencySessions (prompts : List PromptData) : List String :=
  ((prompts.filterMap (fun p => truthyOptStr p.sessionId))).dedup

/-- `_score_efficiency`: `prompts_per_session` (0 when no sessions,
in which case it is never consulted). -/
def promptsPerSession (prompts : List PromptData) : ℚ :=
  if efficiencySessions prompts ≠ [] then
    (prompts.length : ℚ) / (efficiencySessions prompts).length
  else 0

/-- `_score_efficiency`: penalty of the prompts-per-session check, applied
only when `sessions` is nonempty. -/
def efficiencySessionPenalty (prompts : List PromptData) : ℕ :=
  if efficiencySessions prompts ≠ [] then
    (if 10 < promptsPerSession prompts then 20
     else if 5 < promptsPerSession prompts then 10 else 0)
  else 0

/-- `_score_efficiency`: penalty `min(toothpaste_count * 5, 30)`. -/
def efficiencyToothpastePenalty (aps : List AntipatternMatch) : ℕ :=
  if 0 < countType .toothpaste aps then min (countType .toothpaste aps * 5) 30
  else 0

/-- `_score_efficiency`: `thinking_ratio`. -/
def thinkingRatio (prompts : List PromptData) : ℚ :=
  ((prompts.countP (fun p => p.hasThinkingTrigger)) : ℚ) / prompts.length

/-- `_score_efficiency`: `+5` bonus when the extended-thinking ratio
exceeds 0.1. -/
def efficiencyThinkingBonus (prompts : List PromptData) : ℕ :=
  if 0.1 < thinkingRatio prompts then 5 else 0

/-- `HealthScorer._score_efficiency`. -/
def scoreEfficiency (prompts : List PromptData) (aps : List AntipatternMatch) :
    DimensionScore :=
  if prompts = [] then
    { name := "efficiency", score := 100, weight := weightOf "efficiency",
      issues := [] }
  else
    let issues1 : List String :=
      if efficiencySessions prompts ≠ [] then
        (if 10 < promptsPerSession prompts then
          ["平均每会话 " ++ fmt1 (promptsPerSession prompts) ++ " 次交互，偏高"]
         else if 5 < promptsPerSession prompts then
          ["平均每会话 " ++ fmt1 (promptsPerSession prompts) ++ " 次交互"]
         else [])
      else []
    let issues2 : List String :=
      if 0.1 < thinkingRatio prompts then
        ["Extended thinking 使用率 " ++ fmtPct0 (thinkingRatio prompts) ++ " (良好)"]
      else []
    { name := "efficiency"
      score := max 0 (min 100 (100 - (efficiencySessionPenalty prompts : ℚ)
        - (efficiencyToothpastePenalty aps : ℚ)
        + (efficiencyThinkingBonus prompts : ℚ)))
      weight := weightOf "efficiency"
      issues := issues1 ++ issues2 }

/-- `_score_context_management`: penalty
`min(explosion_count * 15 + critical * 10, 60)`. -/
def contextExplosionPenalty (aps : List AntipatternMatch) : ℕ :=
  if 0 < countType .contextExplosion aps then
    min (countType .contextExplosion aps * 15 +
      (aps.countP (fun ap =>
        ap.type == .contextExplosion && ap.severity == .critical)) * 10) 60
  else 0

/-- `HealthScorer._score_context_management`. -/
def scoreContextManagement (_prompts : List PromptData)
    (aps : List AntipatternMatch) : DimensionScore :=
  let issues1 : List String :=
    if 0 < countType .contextExplosion aps then
      [toString (countType .contextExplosion aps) ++ " 个上下文爆炸会话"]
    else []
  { name := "context_management"
    score := max 0 (min 100 (100 - (contextExplosionPenalty aps : ℚ)))
    weight := weightOf "context_management"
    issues := issues1 }

/-- `HealthScorer._generate_suggestions`. -/
def generateSuggestions (dimensions : List DimensionScore)
    (aps : List AntipatternMatch) : List String :=
  let sortedDims := List.insertionSort
    (fun a b : DimensionScore => a.score ≤ b.score) dimensions
  let dimSuggestions := (sortedDims.take 2).filterMap (fun dim =>
    if dim.score < 70 then
      if dim.name = "clarity" then
        some "提高清晰度：用具体的数值、示例和约束条件替代模糊表达"
      else if dim.name = "completeness" then
        some "提高完整性：粘贴代码/错误时添加问题描述、环境信息和期望结果"
      else if dim.name = "efficiency" then
        some "提高效率：一次性提供完整需求，减少来回追问"
      else if dim.name = "context_management" then
        some "优化上下文：长对话后使用 /clear 开启新会话"
      else none
    else none)
  let extra1 : List String :=
    if 5 < countType .toothpaste aps then
      ["减少碎片化：写 prompt 前先整理好所有需求点"] else []
  let extra2 : List String :=
    if 3 < countType .rawPaste aps then
      ["避免原始粘贴：用 " ++ sq ++ "我遇到了X问题，代码如下..." ++ sq ++ " 的结构"] else []
  (dimSuggestions ++ extra1 ++ extra2).take 5

/-- `HealthScorer._empty_report`. -/
def emptyReport (days : Int) : HealthReportResponse :=
  { overallScore := 0
    grade := "F"
    dimensions := []
    totalPromptsAnalyzed := 0
    periodDays := days
    improvementSuggestions := ["没有找到可分析的数据"]
    trendVsLastWeek := none }

/-- `calculate_health_report`: the list of the four dimension scores. -/
def healthDimensions (prompts : List PromptData)
    (aps : List AntipatternMatch) : List DimensionScore :=
  [scoreClarity prompts aps, scoreCompleteness prompts aps,
   scoreEfficiency prompts aps, scoreContextManagement prompts aps]

/-- `calculate_health_report`:
`overall_score = sum(d.score * d.weight for d in dimensions)`. -/
def healthOverall (prompts : List PromptData)
    (aps : List AntipatternMatch) : ℚ :=
  ((healthDimensions prompts aps).map (fun d => d.score * d.weight)).sum

/-- `HealthScorer.calculate_health_report`. -/
def calculateHealthReport (prompts : List PromptData)
    (aps : List AntipatternMatch) (days : Int) : HealthReportResponse :=
  if prompts = [] then emptyReport days
  else
    { overallScore := pyRound1 (healthOverall prompts aps)
      grade := calculateGrade (healthOverall prompts aps)
      dimensions := healthDimensions prompts aps
      totalPromptsAnalyzed := prompts.length
      periodDays := days
      improvementSuggestions :=
        generateSuggestions (healthDimensions prompts aps) aps
      trendVsLastWeek := none }

/-! ## Rounding and granularity lemmas for the health scorer -/

theorem abs_pyRoundEven_sub (y : ℚ) : |(pyRoundEven y : ℚ) - y| ≤ 1 / 2 := by
  unfold pyRoundEven
  split_ifs with h he
  · rw [abs_le]
    constructor <;> nlinarith [Int.floor_le y, Int.lt_floor_add_one y]
  · rw [abs_le]
    push_cast
    constructor <;> nlinarith [Int.floor_le y, Int.lt_floor_add_one y]
  · rw [abs_sub_comm]
    exact abs_sub_round y

/-- Rounding to one decimal does not move a quarter-integer value across an
integer threshold. -/
theorem le_pyRound1_iff {x : ℚ} {k : ℤ} (hx : 4 * x = (k : ℚ)) (t : ℤ) :
    (t : ℚ) ≤ pyRound1 x ↔ (t : ℚ) ≤ x := by
  have h1 := abs_pyRoundEven_sub (10 * x)
  rw [abs_le] at h1
  obtain ⟨h1a, h1b⟩ := h1
  unfold pyRound1
  constructor
  · intro h
    by_contra hlt
    push_neg at hlt
    have hk : (k : ℚ) < 4 * t := by linarith
    have hk' : k + 1 ≤ 4 * t := by exact_mod_cast hk
    have hk'' : (k : ℚ) + 1 ≤ 4 * t := by exact_mod_cast hk'
    have hx4 : x ≤ (t : ℚ) - 1 / 4 := by linarith
    linarith
  · intro h
    have h2 : (10 * t : ℚ) ≤ (pyRoundEven (10 * x) : ℚ) + 1 / 2 := by linarith
    have h3 : (10 * t : ℤ) ≤ pyRoundEven (10 * x) := by
      by_contra hc
      push_neg at hc
      have hc1 : pyRoundEven (10 * x) + 1 ≤ 10 * t := hc
      have hc2 : (pyRoundEven (10 * x) : ℚ) + 1 ≤ 10 * t := by exact_mod_cast hc1
      linarith
    have h4 : ((10 * t : ℤ) : ℚ) ≤ (pyRoundEven (10 * x) : ℚ) := by exact_mod_cast h3
    push_cast at h4
    linarith

/-- The clamp `max(0, min(100, ·))` over ℚ of an integer is the cast of the
integer clamp. -/
theorem clamp_intCast (m : ℤ) :
    max 0 (min 100 ((m : ℚ))) = ((max 0 (min 100 m) : ℤ) : ℚ) := by
  push_cast
  rfl

theorem dvd_min' {a b c : ℕ} (hb : a ∣ b) (hc : a ∣ c) : a ∣ min b c := by
  rcases min_cases b c with ⟨h, _⟩ | ⟨h, _⟩ <;> simp [h, hb, hc]

/-- A clamped integer that is divisible by `q` stays a multiple of `q`
(`q` also divides 100). -/
theorem exists_cast_clamp (z : ℤ) (q : ℤ) (hz : q ∣ z) (h100 : q ∣ 100) :
    ∃ a : ℤ, max 0 (min 100 ((z : ℚ))) = (q : ℚ) * (a : ℚ) := by
  have hmin : q ∣ min 100 z := by
    rcases min_cases (100 : ℤ) z with ⟨h, _⟩ | ⟨h, _⟩ <;> rw [h]
    · exact h100
    · exact hz
  have hmax : q ∣ max 0 (min 100 z) := by
    rcases max_cases (0 : ℤ) (min 100 z) with ⟨h, _⟩ | ⟨h, _⟩ <;> rw [h]
    · exact dvd_zero q
    · exact hmin
  obtain ⟨a, ha⟩ := hmax
  refine ⟨a, ?_⟩
  rw [clamp_intCast, ha]
  push_cast
  ring

theorem scoreClarity_gran (prompts : List PromptData)
    (aps : List AntipatternMatch) :
    ∃ a : ℤ, (scoreClarity prompts aps).score = 5 * (a : ℚ) := by
  have h1 : 5 ∣ clarityVaguePenalty aps := by
    unfold clarityVaguePenalty
    split_ifs
    · exact dvd_min' (dvd_mul_left 5 _) (by norm_num)
    · exact dvd_zero 5
  have h2 : 5 ∣ clarityLengthPenalty prompts := by
    unfold clarityLengthPenalty
    split_ifs <;> norm_num
  have hz : (5 : ℤ) ∣ (100 - (clarityVaguePenalty aps : ℤ)
      - (clarityLengthPenalty prompts : ℤ)) := by
    have c1 := Int.natCast_dvd_natCast.mpr h1
    have c2 := Int.natCast_dvd_natCast.mpr h2
    omega
  obtain ⟨a, ha⟩ := exists_cast_clamp _ 5 hz (by norm_num)
  refine ⟨a, ?_⟩
  show max 0 (min 100 (100 - (clarityVaguePenalty aps : ℚ)
    - (clarityLengthPenalty prompts : ℚ))) = 5 * (a : ℚ)
  have hcast : (100 : ℚ) - (clarityVaguePenalty aps : ℚ)
      - (clarityLengthPenalty prompts : ℚ)
      = ((100 - (clarityVaguePenalty aps : ℤ)
          - (clarityLengthPenalty prompts : ℤ) : ℤ) : ℚ) := by
    push_cast; ring
  rw [hcast]
  simpa using ha

theorem scoreCompleteness_int (prompts : List PromptData)
    (aps : List AntipatternMatch) :
    ∃ b : ℤ, (scoreCompleteness prompts aps).score = (b : ℚ) := by
  have hz : (1 : ℤ) ∣ (100 - (completenessRawPastePenalty aps : ℤ)
      - (completenessToothpastePenalty aps : ℤ)) := one_dvd _
  obtain ⟨a, ha⟩ := exists_cast_clamp _ 1 hz (one_dvd _)
  refine ⟨a, ?_⟩
  show max 0 (min 100 (100 - (completenessRawPastePenalty aps : ℚ)
    - (completenessToothpastePenalty aps : ℚ))) = (a : ℚ)
  have hcast : (100 : ℚ) - (completenessRawPastePenalty aps : ℚ)
      - (completenessToothpastePenalty aps : ℚ)
      = ((100 - (completenessRawPastePenalty aps : ℤ)
          - (completenessToothpastePenalty aps : ℤ) : ℤ) : ℚ) := by
    push_cast; ring
  rw [hcast]
  simpa using ha

theorem scoreEfficiency_gran (prompts : List PromptData)
    (aps : List AntipatternMatch) :
    ∃ c : ℤ, (scoreEfficiency prompts aps).score = 5 * (c : ℚ) := by
  by_cases hne : prompts = []
  · have hsc : (scoreEfficiency prompts aps).score = 100 := by
      unfold scoreEfficiency
      rw [if_pos hne]
    exact ⟨20, by rw [hsc]; norm_num⟩
  · have hsc : (scoreEfficiency prompts aps).score
        = max 0 (min 100 (100 - (efficiencySessionPenalty prompts : ℚ)
          - (efficiencyToothpastePenalty aps : ℚ)
          + (efficiencyThinkingBonus prompts : ℚ))) := by
      unfold scoreEfficiency
      rw [if_neg hne]
    have h1 : 5 ∣ efficiencySessionPenalty prompts := by
      unfold efficiencySessionPenalty
      split_ifs <;> norm_num
    have h2 : 5 ∣ efficiencyToothpastePenalty aps := by
      unfold efficiencyToothpastePenalty
      split_ifs
      · exact dvd_min' (dvd_mul_left 5 _) (by norm_num)
      · exact dvd_zero 5
    have h3 : 5 ∣ efficiencyThinkingBonus prompts := by
      unfold efficiencyThinkingBonus
      split_ifs <;> norm_num
    have hz : (5 : ℤ) ∣ (100 - (efficiencySessionPenalty prompts : ℤ)
        - (efficiencyToothpastePenalty aps : ℤ)
        + (efficiencyThinkingBonus prompts : ℤ)) := by
      have c1 := Int.natCast_dvd_natCast.mpr h1
      have c2 := Int.natCast_dvd_natCast.mpr h2
      have c3 := Int.natCast_dvd_natCast.mpr h3
      omega
    obtain ⟨a, ha⟩ := exists_cast_clamp _ 5 hz (by norm_num)
    refine ⟨a, ?_⟩
    rw [hsc]
    have hcast : (100 : ℚ) - (efficiencySessionPenalty prompts : ℚ)
        - (efficiencyToothpastePenalty aps : ℚ)
        + (efficiencyThinkingBonus prompts : ℚ)
        = ((100 - (efficiencySessionPenalty prompts : ℤ)
            - (efficiencyToothpastePenalty aps : ℤ)
            + (efficiencyThinkingBonus prompts : ℤ) : ℤ) : ℚ) := by
      push_cast; ring
    rw [hcast]
    simpa using ha

theorem scoreContextManagement_gran (prompts : List PromptData)
    (aps : List AntipatternMatch) :
    ∃ d : ℤ, (scoreContextManagement prompts aps).score = 5 * (d : ℚ) := by
  have h1 : 5 ∣ contextExplosionPenalty aps := by
    unfold contextExplosionPenalty
    split_ifs
    · refine dvd_min' (dvd_add ⟨countType .contextExplosion aps * 3, by ring⟩
        ⟨(aps.countP (fun ap =>
            ap.type == .contextExplosion && ap.severity == .critical)) * 2,
          by ring⟩) (by norm_num)
    · exact dvd_zero 5
  have hz : (5 : ℤ) ∣ (100 - (contextExplosionPenalty aps : ℤ)) := by
    have c1 := Int.natCast_dvd_natCast.mpr h1
    omega
  obtain ⟨a, ha⟩ := exists_cast_clamp _ 5 hz (by norm_num)
  refine ⟨a, ?_⟩
  show max 0 (min 100 (100 - (contextExplosionPenalty aps : ℚ))) = 5 * (a : ℚ)
  have hcast : (100 : ℚ) - (contextExplosionPenalty aps : ℚ)
      = ((100 - (contextExplosionPenalty aps : ℤ) : ℤ) : ℚ) := by
    push_cast; ring
  rw [hcast]
  simpa using ha

/-- The weighted overall score is a quarter-integer. -/
theorem healthOverall_gran (prompts : List PromptData)
    (aps : List AntipatternMatch) :
    ∃ k : ℤ, 4 * healthOverall prompts aps = (k : ℚ) := by
  obtain ⟨a, ha⟩ := scoreClarity_gran prompts aps
  obtain ⟨b, hb⟩ := scoreCompleteness_int prompts aps
  obtain ⟨c, hc⟩ := scoreEfficiency_gran prompts aps
  obtain ⟨d, hd⟩ := scoreContextManagement_gran prompts aps
  refine ⟨6 * a + b + 5 * c + 4 * d, ?_⟩
  have w1 : (scoreClarity prompts aps).weight = 0.30 := rfl
  have w2 : (scoreCompleteness prompts aps).weight = 0.25 := rfl
  have w3 : (scoreEfficiency prompts aps).weight = 0.25 := by
    unfold scoreEfficiency
    split_ifs <;> rfl
  have w4 : (scoreContextManagement prompts aps).weight = 0.20 := rfl
  unfold healthOverall healthDimensions
  simp only [List.map_cons, List.map_nil, List.sum_cons, List.sum_nil]
  rw [w1, w2, w3, w4, ha, hb, hc, hd]
  push_cast
  norm_num
  ring

/-- `_calculate_grade` as a nested threshold conditional. -/
theorem calculateGrade_eq (s : ℚ) :
    calculateGrade s = if 85 ≤ s then "A" else if 70 ≤ s then "B"
      else if 55 ≤ s then "C" else if 40 ≤ s then "D" else "F" := by
  unfold calculateGrade GRADE_THRESHOLDS
  by_cases h1 : (85 : ℚ) ≤ s <;> by_cases h2 : (70 : ℚ) ≤ s <;>
    by_cases h3 : (55 : ℚ) ≤ s <;> by_cases h4 : (40 : ℚ) ≤ s <;>
      by_cases h5 : (0 : ℚ) ≤ s <;>
        simp [List.find?, h1, h2, h3, h4, h5]

/-- The grade classification in terms of a rounding of the score that does
not cross integer thresholds. -/
theorem grade_iffs (ws rs : ℚ)
    (hiff : ∀ t : ℤ, ((t : ℚ) ≤ rs ↔ (t : ℚ) ≤ ws)) :
    (calculateGrade ws = "A" ↔ 85 ≤ rs) ∧
    (calculateGrade ws = "B" ↔ 70 ≤ rs ∧ rs < 85) ∧
    (calculateGrade ws = "C" ↔ 55 ≤ rs ∧ rs < 70) ∧
    (calculateGrade ws = "D" ↔ 40 ≤ rs ∧ rs < 55) ∧
    (calculateGrade ws = "F" ↔ rs < 40) := by
  have h85 := hiff 85
  have h70 := hiff 70
  have h55 := hiff 55
  have h40 := hiff 40
  push_cast at h85 h70 h55 h40
  rw [calculateGrade_eq]
  split_ifs with g1 g2 g3 g4
  · have hr : (85 : ℚ) ≤ rs := h85.mpr g1
    refine ⟨iff_of_true rfl hr, iff_of_false (by decide) ?_,
      iff_of_false (by decide) ?_, iff_of_false (by decide) ?_,
      iff_of_false (by decide) ?_⟩
    · rintro ⟨-, hlt⟩; linarith
    · rintro ⟨-, hlt⟩; linarith
    · rintro ⟨-, hlt⟩; linarith
    · intro hlt; linarith
  · have hna : ¬ (85 : ℚ) ≤ rs := fun h => g1 (h85.mp h)
    have hr : (70 : ℚ) ≤ rs := h70.mpr g2
    refine ⟨iff_of_false (by decide) hna,
      iff_of_true rfl ⟨hr, not_le.mp hna⟩,
      iff_of_false (by decide) ?_, iff_of_false (by decide) ?_,
      iff_of_false (by decide) ?_⟩
    · rintro ⟨-, hlt⟩; linarith
    · rintro ⟨-, hlt⟩; linarith
    · intro hlt; linarith
  · have hna : ¬ (70 : ℚ) ≤ rs := fun h => g2 (h70.mp h)
    have hr : (55 : ℚ) ≤ rs := h55.mpr g3
    refine ⟨iff_of_false (by decide) ?_,
      iff_of_false (by decide) ?_,
      iff_of_true rfl ⟨hr, not_le.mp hna⟩,
      iff_of_false (by decide) ?_, iff_of_false (by decide) ?_⟩
    · intro h; exact hna (by linarith)
    · rintro ⟨h, -⟩; exact hna h
    · rintro ⟨-, hlt⟩; linarith
    · intro hlt; linarith
  · have hna : ¬ (55 : ℚ) ≤ rs := fun h => g3 (h55.mp h)
    have hr : (40 : ℚ) ≤ rs := h40.mpr g4
    refine ⟨iff_of_false (by decide) ?_,
      iff_of_false (by decide) ?_, iff_of_false (by decide) ?_,
      iff_of_true rfl ⟨hr, not_le.mp hna⟩,
      iff_of_false (by decide) ?_⟩
    · intro h; exact hna (by linarith)
    · rintro ⟨h, -⟩; exact hna (by linarith)
    · rintro ⟨h, -⟩; exact hna h
    · intro hlt; linarith
  · have hna : ¬ (40 : ℚ) ≤ rs := fun h => g4 (h40.mp h)
    refine ⟨iff_of_false (by decide) ?_,
      iff_of_false (by decide) ?_, iff_of_false (by decide) ?_,
      iff_of_false (by decide) ?_,
      iff_of_true rfl (not_le.mp hna)⟩
    · intro h; exact hna (by linarith)
    · rintro ⟨h, -⟩; exact hna (by linarith)
    · rintro ⟨h, -⟩; exact hna (by linarith)
    · rintro ⟨h, -⟩; exact hna h

/-- C1: for every health report computed from a non-empty prompt list, the
letter grade matches the fixed thresholds on the reported overall score
(A ⟺ ≥85, B ⟺ [70,85), C ⟺ [55,70), D ⟺ [40,55), F ⟺ <40); in particular
the grading function maps 85.0 to "A" and 84.9 to "B". -/
theorem C1_grade_matches_thresholds (prompts : List PromptData)
    (aps : List AntipatternMatch) (days : Int) (hne : prompts ≠ []) :
    (((calculateHealthReport prompts aps days).grade = "A" ↔
        85 ≤ (calculateHealthReport prompts aps days).overallScore) ∧
     ((calculateHealthReport prompts aps days).grade = "B" ↔
        70 ≤ (calculateHealthReport prompts aps days).overallScore ∧
        (calculateHealthReport prompts aps days).overallScore < 85) ∧
     ((calculateHealthReport prompts aps days).grade = "C" ↔
        55 ≤ (calculateHealthReport prompts aps days).overallScore ∧
        (calculateHealthReport prompts aps days).overallScore < 70) ∧
     ((calculateHealthReport prompts aps days).grade = "D" ↔
        40 ≤ (calculateHealthReport prompts aps days).overallScore ∧
        (calculateHealthReport prompts aps days).overallScore < 55) ∧
     ((calculateHealthReport prompts aps days).grade = "F" ↔
        (calculateHealthReport prompts aps days).overallScore < 40)) ∧
    calculateGrade 85 = "A" ∧ calculateGrade (849 / 10) = "B" := by
  have hg : (calculateHealthReport prompts aps days).grade
      = calculateGrade (healthOverall prompts aps) := by
    unfold calculateHealthReport
    rw [if_neg hne]
  have ho : (calculateHealthReport prompts aps days).overallScore
      = pyRound1 (healthOverall prompts aps) := by
    unfold calculateHealthReport
    rw [if_neg hne]
  rw [hg, ho]
  obtain ⟨k, hk⟩ := healthOverall_gran prompts aps
  have hiff := fun t => le_pyRound1_iff hk t
  refine ⟨grade_iffs _ _ hiff, ?_, ?_⟩
  · rw [calculateGrade_eq]; norm_num
  · rw [calculateGrade_eq]; norm_num

/-- Witness prompt for the scorer theorems: text "hello", no session id,
no thinking trigger. -/
def witnessPrompt : PromptData :=
  { text := "hello".toList, timestamp := 0, project := "p", charCount := 5 }

/-- C1 witness: the grade/threshold consistency instantiated at a concrete
one-prompt input. -/
theorem C1_grade_matches_thresholds_witness :
    ([witnessPrompt] : List PromptData) ≠ [] ∧
    ((((calculateHealthReport [witnessPrompt] [] 7).grade = "A" ↔
        85 ≤ (calculateHealthReport [witnessPrompt] [] 7).overallScore) ∧
      ((calculateHealthReport [witnessPrompt] [] 7).grade = "B" ↔
        70 ≤ (calculateHealthReport [witnessPrompt] [] 7).overallScore ∧
        (calculateHealthReport [witnessPrompt] [] 7).overallScore < 85) ∧
      ((calculateHealthReport [witnessPrompt] [] 7).grade = "C" ↔
        55 ≤ (calculateHealthReport [witnessPrompt] [] 7).overallScore ∧
        (calculateHealthReport [witnessPrompt] [] 7).overallScore < 70) ∧
      ((calculateHealthReport [witnessPrompt] [] 7).grade = "D" ↔
        40 ≤ (calculateHealthReport [witnessPrompt] [] 7).overallScore ∧
        (calculateHealthReport [witnessPrompt] [] 7).overallScore < 55) ∧
      ((calculateHealthReport [witnessPrompt] [] 7).grade = "F" ↔
        (calculateHealthReport [witnessPrompt] [] 7).overallScore < 40)) ∧
     calculateGrade 85 = "A" ∧ calculateGrade (849 / 10) = "B") :=
  ⟨List.cons_ne_nil _ _,
   C1_grade_matches_thresholds [witnessPrompt] [] 7 (List.cons_ne_nil _ _)⟩

/-- C10: with a non-empty prompt list in which no prompt carries a session
identifier, no fragmented-input (toothpaste) matches, and an
extended-thinking usage fraction of at most 0.10, the efficiency dimension
scores exactly 100 — the prompts-per-session check is skipped entirely. -/
theorem C10_efficiency_no_session_penalty (prompts : List PromptData)
    (aps : List AntipatternMatch) (h1 : prompts ≠ [])
    (h2 : ∀ p ∈ prompts, p.sessionId = none)
    (h3 : ∀ ap ∈ aps, ap.type ≠ AntipatternType.toothpaste)
    (h4 : (prompts.countP (fun p => p.hasThinkingTrigger)) * 10
      ≤ prompts.length) :
    (scoreEfficiency prompts aps).score = 100 := by
  have hsc : (scoreEfficiency prompts aps).score
      = max 0 (min 100 (100 - (efficiencySessionPenalty prompts : ℚ)
        - (efficiencyToothpastePenalty aps : ℚ)
        + (efficiencyThinkingBonus prompts : ℚ))) := by
    unfold scoreEfficiency
    rw [if_neg h1]
  have hsess : efficiencySessions prompts = [] := by
    unfold efficiencySessions
    have hfm : prompts.filterMap (fun p => truthyOptStr p.sessionId) = [] := by
      rw [List.filterMap_eq_nil_iff]
      intro p hp
      rw [h2 p hp]
      rfl
    rw [hfm]
    rfl
  have hp1 : efficiencySessionPenalty prompts = 0 := by
    unfold efficiencySessionPenalty
    rw [if_neg (by simp [hsess])]
  have hcnt : countType .toothpaste aps = 0 := by
    unfold countType
    rw [List.countP_eq_zero]
    intro ap hap
    simpa using h3 ap hap
  have hp2 : efficiencyToothpastePenalty aps = 0 := by
    unfold efficiencyToothpastePenalty
    rw [hcnt]
    simp
  have hratio : ¬ ((0.1 : ℚ) < thinkingRatio prompts) := by
    unfold thinkingRatio
    rw [not_lt]
    have hlen : (0 : ℚ) < (prompts.length : ℚ) := by
      exact_mod_cast List.length_pos.mpr h1
    rw [div_le_iff₀ hlen]
    have h4q : ((prompts.countP (fun p => p.hasThinkingTrigger)) : ℚ) * 10
        ≤ (prompts.length : ℚ) := by exact_mod_cast h4
    nlinarith
  have hb : efficiencyThinkingBonus prompts = 0 := by
    unfold efficiencyThinkingBonus
    rw [if_neg hratio]
  rw [hsc, hp1, hp2, hb]
  norm_num

/-- C10 witness: concrete one-prompt instantiation. -/
theorem C10_efficiency_no_session_penalty_witness :
    (([witnessPrompt] : List PromptData) ≠ [] ∧
     (∀ p ∈ [witnessPrompt], p.sessionId = none) ∧
     (∀ ap ∈ ([] : List AntipatternMatch),
        ap.type ≠ AntipatternType.toothpaste) ∧
     ([witnessPrompt].countP (fun p => p.hasThinkingTrigger)) * 10
       ≤ [witnessPrompt].length) ∧
    (scoreEfficiency [witnessPrompt] []).score = 100 :=
  ⟨⟨List.cons_ne_nil _ _, by decide, by simp, by decide⟩,
   C10_efficiency_no_session_penalty [witnessPrompt] []
     (List.cons_ne_nil _ _) (by decide) (by simp) (by decide)⟩

/-! ## LogIngestor: `DataReader.get_prompts` core (data_reader.py 64-79)

The two reader helpers contribute a combined list of `PromptData`; the core
then sorts descending by timestamp and removes duplicates by the
fingerprint `f"{text[:100]}_{timestamp.isoformat()}"`.  `isoformat` is
injective on the instants modelling the timestamps, so the fingerprint is
modelled as the pair (first 100 characters, timestamp). -/

/-- Deduplication fingerprint `f"{p.text[:100]}_{p.timestamp.isoformat()}"`.
`isoformat()` of an aware datetime is injective in (instant, utcoffset) —
equal instants with different preserved offsets render different strings —
so the key is modelled as the triple (first 100 characters, instant,
offset). -/
def promptKey (p : PromptData) : Str × ℚ × Int :=
  (p.text.take 100, p.timestamp, p.tzOffset)

/-- `prompts.sort(key=lambda p: p.timestamp, reverse=True)`: a stable sort
under reversed comparisons. -/
def sortByTimestampDesc (prompts : List PromptData) : List PromptData :=
  List.insertionSort (fun a b => b.timestamp ≤ a.timestamp) prompts

/-- The `seen`-set deduplication loop, keeping the first occurrence. -/
def dedupPrompts (seen : List (Str × ℚ × Int)) :
    List PromptData → List PromptData
  | [] => []
  | p :: rest =>
    if promptKey p ∈ seen then dedupPrompts seen rest
    else p :: dedupPrompts (promptKey p :: seen) rest

/-- `DataReader.get_prompts`, starting from the combined record list of the
two log sources.  `if limit:` is Python truthiness: `None` and `0` both
return the full list. -/
def getPrompts (prompts : List PromptData) (limit : Option Nat) :
    List PromptData :=
  let uniquePrompts := dedupPrompts [] (sortByTimestampDesc prompts)
  match limit with
  | some n => if n = 0 then uniquePrompts else uniquePrompts.take n
  | none => uniquePrompts

theorem dedupPrompts_sublist (seen : List (Str × ℚ × Int)) :
    ∀ l : List PromptData, (dedupPrompts seen l).Sublist l := by
  intro l
  induction l generalizing seen with
  | nil => simp [dedupPrompts]
  | cons p rest ih =>
    unfold dedupPrompts
    split_ifs
    · exact (ih seen).trans (List.sublist_cons_self p rest)
    · exact (ih (promptKey p :: seen)).cons₂ p

theorem dedupPrompts_keys (seen : List (Str × ℚ × Int)) :
    ∀ l : List PromptData,
      ((dedupPrompts seen l).map promptKey).Nodup ∧
      ∀ k ∈ (dedupPrompts seen l).map promptKey, k ∉ seen := by
  intro l
  induction l generalizing seen with
  | nil => simp [dedupPrompts]
  | cons p rest ih =>
    unfold dedupPrompts
    split_ifs with hmem
    · exact ih seen
    · obtain ⟨ihn, ihs⟩ := ih (promptKey p :: seen)
      constructor
      · rw [List.map_cons, List.nodup_cons]
        refine ⟨fun hk => ?_, ihn⟩
        exact (ihs _ hk) (List.mem_cons_self _ _)
      · intro k hk
        rw [List.map_cons, List.mem_cons] at hk
        rcases hk with rfl | hk
        · exact hmem
        · intro hks
          exact (ihs k hk) (List.mem_cons_of_mem _ hks)

theorem dedupPrompts_covers (seen : List (Str × ℚ × Int)) :
    ∀ l : List PromptData, ∀ p ∈ l,
      promptKey p ∈ seen ∨
      ∃ q ∈ dedupPrompts seen l, promptKey q = promptKey p := by
  intro l
  induction l generalizing seen with
  | nil => intro p hp; simp at hp
  | cons a rest ih =>
    intro p hp
    unfold dedupPrompts
    split_ifs with hmem
    · rcases List.mem_cons.mp hp with rfl | hp'
      · exact Or.inl hmem
      · exact ih seen p hp'
    · rcases List.mem_cons.mp hp with rfl | hp'
      · exact Or.inr ⟨p, List.mem_cons_self _ _, rfl⟩
      · rcases ih (promptKey a :: seen) p hp' with hseen | ⟨q, hq, hkq⟩
        · rcases List.mem_cons.mp hseen with heq | hseen'
          · exact Or.inr ⟨a, List.mem_cons_self _ _, heq.symm⟩
          · exact Or.inl hseen'
        · exact Or.inr ⟨q, List.mem_cons_of_mem _ hq, hkq⟩

/-- C2 (amended): `get_prompts` output is sorted non-increasing by
timestamp, its isoformat fingerprints (first 100 characters, instant,
preserved utcoffset) are pairwise distinct, and (with the default
`limit=None`) every input fingerprint is represented by exactly one
surviving prompt.  Distinctness holds for the isoformat fingerprint only:
records agreeing on (first 100 characters, instant) but carrying different
preserved offsets both survive (see the counterexample). -/
theorem C2_getPrompts_sorted_dedup (input : List PromptData)
    (limit : Option Nat) :
    List.Pairwise (fun a b => b.timestamp ≤ a.timestamp)
      (getPrompts input limit) ∧
    ((getPrompts input limit).map promptKey).Nodup ∧
    (∀ p ∈ input, ∃! q, q ∈ getPrompts input none ∧
      promptKey q = promptKey p) := by
  haveI : IsTotal PromptData (fun a b => b.timestamp ≤ a.timestamp) :=
    ⟨fun a b => le_total b.timestamp a.timestamp⟩
  haveI : IsTrans PromptData (fun a b => b.timestamp ≤ a.timestamp) :=
    ⟨fun _ _ _ hab hbc => le_trans hbc hab⟩
  have hsorted : List.Pairwise (fun a b => b.timestamp ≤ a.timestamp)
      (sortByTimestampDesc input) :=
    List.sorted_insertionSort _ input
  have hdsorted : List.Pairwise (fun a b => b.timestamp ≤ a.timestamp)
      (dedupPrompts [] (sortByTimestampDesc input)) :=
    List.Pairwise.sublist (dedupPrompts_sublist [] _) hsorted
  have hkeys := dedupPrompts_keys ([] : List (Str × ℚ × Int))
    (sortByTimestampDesc input)
  refine ⟨?_, ?_, ?_⟩
  · unfold getPrompts
    match limit with
    | none => exact hdsorted
    | some n =>
      by_cases hn : n = 0
      · simpa [hn] using hdsorted
      · simpa [hn] using List.Pairwise.sublist (List.take_sublist n _) hdsorted
  · unfold getPrompts
    match limit with
    | none => exact hkeys.1
    | some n =>
      by_cases hn : n = 0
      · simpa [hn] using hkeys.1
      · refine List.Nodup.sublist ?_ hkeys.1
        simpa [hn] using (List.take_sublist n _).map promptKey
  · intro p hp
    have hpmem : p ∈ sortByTimestampDesc input :=
      (List.perm_insertionSort _ input).mem_iff.mpr hp
    rcases dedupPrompts_covers [] _ p hpmem with hfalse | ⟨q, hq, hkq⟩
    · simp at hfalse
    · refine ⟨q, ⟨?_, hkq⟩, ?_⟩
      · unfold getPrompts
        exact hq
      · rintro y ⟨hymem, hykey⟩
        have hinj := List.inj_on_of_nodup_map hkeys.1
        have hymem' : y ∈ dedupPrompts [] (sortByTimestampDesc input) := by
          simpa [getPrompts] using hymem
        exact hinj hymem' hq (by rw [hykey, hkq])

/-- Two records with identical text and the same instant whose parsed
timestamps preserved different UTC offsets (as `_parse_timestamp` does for
explicit-offset ISO strings, e.g. `2025-01-01T10:00:00+10:00` vs
`2025-01-01T00:00:00+00:00`): equal datetimes, different `isoformat()`
strings. -/
def c2utc : PromptData :=
  { text := "same request".toList, timestamp := 1735689600,
    tzOffset := 0, project := "p" }

def c2plus10 : PromptData :=
  { text := "same request".toList, timestamp := 1735689600,
    tzOffset := 36000, project := "p" }

section
attribute [local semireducible] Rat.add Rat.mul Rat.sub Rat.inv

/-- C2 counterexample: the dedup key is the isoformat string, not the
(first-100-characters, exact-timestamp) pair of the claim — two records
with equal text and equal timestamps (instants) but different preserved
offsets render different keys, so both survive and the returned list
contains two prompts sharing the claimed fingerprint. -/
theorem C2_counterexample_offset_fingerprint :
    getPrompts [c2utc, c2plus10] none = [c2utc, c2plus10] ∧
    c2utc.text.take 100 = c2plus10.text.take 100 ∧
    c2utc.timestamp = c2plus10.timestamp ∧
    c2utc ≠ c2plus10 := by
  refine ⟨?_, ?_, ?_, ?_⟩ <;> decide

end

/-! ## Fenced code blocks: `re.findall(r"```[\s\S]*?```", text)`

The non-greedy regex scans left to right: at each opening fence the
earliest closing fence ends the match. -/

/-- First three characters are a fence. -/
def isFenceStart (s : Str) : Bool := ['`', '`', '`'].isPrefixOf s

/-- Split at the first triple-backtick fence:
`some (before, after)` with the fence itself removed. -/
def splitFence : Str → Option (Str × Str)
  | [] => none
  | c :: rest =>
    if isFenceStart (c :: rest) then some ([], rest.drop 2)
    else (splitFence rest).map (fun pr => (c :: pr.1, pr.2))

theorem splitFence_some : ∀ {cs pre rest : Str},
    splitFence cs = some (pre, rest) →
    cs = pre ++ '`' :: '`' :: '`' :: rest := by
  intro cs
  induction cs with
  | nil => intro pre rest h; simp [splitFence] at h
  | cons c tail ih =>
    intro pre rest h
    rw [splitFence] at h
    split_ifs at h with hf
    · obtain ⟨t, ht⟩ := List.isPrefixOf_iff_prefix.mp hf
      obtain ⟨hpre, hrest⟩ := Prod.mk.injEq .. ▸ Option.some.injEq .. ▸ h
      have hc : c = '`' ∧ tail = '`' :: '`' :: t := by
        have := ht.symm
        simp only [List.cons_append, List.nil_append] at this
        exact ⟨(List.cons.injEq .. ▸ this).1,
          by
            have h2 := (List.cons.injEq .. ▸ this).2
            simpa using h2⟩
      obtain ⟨rfl, rfl⟩ := hc
      simp at hrest
      simp [← hpre, ← hrest]
    · rw [Option.map_eq_some'] at h
      obtain ⟨⟨p', r'⟩, hsf, heq⟩ := h
      obtain ⟨hp, hr⟩ := Prod.mk.injEq .. ▸ heq
      have := ih hsf
      subst hr
      rw [← hp, this]
      simp

theorem splitFence_length {cs pre rest : Str}
    (h : splitFence cs = some (pre, rest)) :
    cs.length = pre.length + 3 + rest.length := by
  have := splitFence_some h
  subst this
  simp
  omega

/-- The fenced-block scan, with explicit fuel (each step strips at least
six characters, so `length + 1` fuel is never exhausted; fuel keeps the
recursion structural and kernel-reducible). -/
def findCodeBlocksF : Nat → Str → List Str
  | 0, _ => []
  | fuel + 1, cs =>
    match splitFence cs with
    | none => []
    | some (_, rest1) =>
      match splitFence rest1 with
      | none => []
      | some (inner, rest2) =>
        ('`' :: '`' :: '`' :: (inner ++ ['`', '`', '`'])) ::
          findCodeBlocksF fuel rest2

/-- `re.findall(r"```[\s\S]*?```", text)`: the list of fenced blocks, each
including both fences. -/
def findCodeBlocks (cs : Str) : List Str :=
  findCodeBlocksF (cs.length + 1) cs

theorem findCodeBlocksF_fuel :
    ∀ (fuel fuel' : Nat) (cs : Str), cs.length < fuel →
      cs.length < fuel' → findCodeBlocksF fuel cs = findCodeBlocksF fuel' cs := by
  intro fuel
  induction fuel with
  | zero => intro fuel' cs h h'; omega
  | succ n ih =>
    intro fuel' cs h h'
    cases fuel' with
    | zero => omega
    | succ n' =>
      cases h1 : splitFence cs with
      | none => simp [findCodeBlocksF, h1]
      | some pr =>
        obtain ⟨pre, rest1⟩ := pr
        cases h2 : splitFence rest1 with
        | none => simp [findCodeBlocksF, h1, h2]
        | some pr2 =>
          obtain ⟨inner, rest2⟩ := pr2
          have e1 := splitFence_length h1
          have e2 := splitFence_length h2
          simp only [findCodeBlocksF, h1, h2]
          rw [ih n' rest2 (by omega) (by omega)]

theorem findCodeBlocksF_step (fuel : Nat) (cs : Str) :
    findCodeBlocksF (fuel + 1) cs =
      match splitFence cs with
      | none => []
      | some (_, rest1) =>
        match splitFence rest1 with
        | none => []
        | some (inner, rest2) =>
          ('`' :: '`' :: '`' :: (inner ++ ['`', '`', '`'])) ::
            findCodeBlocksF fuel rest2 := rfl

/-- One-step unfolding of `findCodeBlocks`. -/
theorem findCodeBlocks_unfold (cs : Str) :
    findCodeBlocks cs =
      match splitFence cs with
      | none => []
      | some (_, rest1) =>
        match splitFence rest1 with
        | none => []
        | some (inner, rest2) =>
          ('`' :: '`' :: '`' :: (inner ++ ['`', '`', '`'])) ::
            findCodeBlocks rest2 := by
  unfold findCodeBlocks
  rw [findCodeBlocksF_step]
  cases h1 : splitFence cs with
  | none => simp only [h1]
  | some pr =>
    obtain ⟨pre, rest1⟩ := pr
    simp only [h1]
    cases h2 : splitFence rest1 with
    | none => simp only [h2]
    | some pr2 =>
      obtain ⟨inner, rest2⟩ := pr2
      simp only [h2]
      have e1 := splitFence_length h1
      have e2 := splitFence_length h2
      rw [findCodeBlocksF_fuel cs.length (rest2.length + 1) rest2
        (by omega) (by omega)]

/-- The block-removal scan, with explicit fuel. -/
def removeCodeBlocksF : Nat → Str → Str
  | 0, cs => cs
  | fuel + 1, cs =>
    match splitFence cs with
    | none => cs
    | some (pre, rest1) =>
      match splitFence rest1 with
      | none => cs
      | some (_, rest2) => pre ++ removeCodeBlocksF fuel rest2

/-- `re.sub(r"```[\s\S]*?```", "", text)`: the text with fenced blocks
removed (unchanged when no complete block remains). -/
def removeCodeBlocks (cs : Str) : Str :=
  removeCodeBlocksF (cs.length + 1) cs

theorem removeCodeBlocksF_fuel :
    ∀ (fuel fuel' : Nat) (cs : Str), cs.length < fuel →
      cs.length < fuel' →
      removeCodeBlocksF fuel cs = removeCodeBlocksF fuel' cs := by
  intro fuel
  induction fuel with
  | zero => intro fuel' cs h h'; omega
  | succ n ih =>
    intro fuel' cs h h'
    cases fuel' with
    | zero => omega
    | succ n' =>
      cases h1 : splitFence cs with
      | none => simp [removeCodeBlocksF, h1]
      | some pr =>
        obtain ⟨pre, rest1⟩ := pr
        cases h2 : splitFence rest1 with
        | none => simp [removeCodeBlocksF, h1, h2]
        | some pr2 =>
          obtain ⟨inner, rest2⟩ := pr2
          have e1 := splitFence_length h1
          have e2 := splitFence_length h2
          simp only [removeCodeBlocksF, h1, h2]
          rw [ih n' rest2 (by omega) (by omega)]

theorem removeCodeBlocksF_step (fuel : Nat) (cs : Str) :
    removeCodeBlocksF (fuel + 1) cs =
      match splitFence cs with
      | none => cs
      | some (pre, rest1) =>
        match splitFence rest1 with
        | none => cs
        | some (_, rest2) => pre ++ removeCodeBlocksF fuel rest2 := rfl

/-- One-step unfolding of `removeCodeBlocks`. -/
theorem removeCodeBlocks_unfold (cs : Str) :
    removeCodeBlocks cs =
      match splitFence cs with
      | none => cs
      | some (pre, rest1) =>
        match splitFence rest1 with
        | none => cs
        | some (_, rest2) => pre ++ removeCodeBlocks rest2 := by
  unfold removeCodeBlocks
  rw [removeCodeBlocksF_step]
  cases h1 : splitFence cs with
  | none => simp only [h1]
  | some pr =>
    obtain ⟨pre, rest1⟩ := pr
    simp only [h1]
    cases h2 : splitFence rest1 with
    | none => simp only [h2]
    | some pr2 =>
      obtain ⟨inner, rest2⟩ := pr2
      simp only [h2]
      have e1 := splitFence_length h1
      have e2 := splitFence_length h2
      rw [removeCodeBlocksF_fuel cs.length (rest2.length + 1) rest2
        (by omega) (by omega)]

/-- `bool(re.search(r"```[\s\S]*?```", text))`. -/
def hasCodeBlockRe (text : Str) : Bool := !(findCodeBlocks text).isEmpty

/-! ## Executable matchers for the source regexes

A step consumes a prefix of the text and yields the remainder; a pattern is
a step list.  Alternation and optional groups are encoded by running every
backtracking path as its own step list. -/

/-- Literal token. -/
def lit (w : Str) (s : Str) : Option Str :=
  if w.isPrefixOf s then some (s.drop w.length) else none

/-- `\s+` (maximal; the following tokens never start with whitespace). -/
def ws1 : Str → Option Str
  | c :: rest => if isPyWs c then some (rest.dropWhile isPyWs) else none
  | [] => none

/-- `\s*` (maximal). -/
def ws0 (s : Str) : Option Str := some (s.dropWhile isPyWs)

/-- Python `\w`, ASCII approximation. -/
def isWordChar (c : Char) : Bool := c.isAlphanum || c = '_'

/-- `\w+` (maximal; the following tokens never start with a word char). -/
def wchars1 : Str → Option Str
  | c :: rest =>
    if isWordChar c then some (rest.dropWhile isWordChar) else none
  | [] => none

/-- `[\w/]+` (maximal). -/
def wordSlash1 : Str → Option Str
  | c :: rest =>
    if isWordChar c || c = '/' then
      some (rest.dropWhile (fun d => isWordChar d || d = '/'))
    else none
  | [] => none

/-- `\d+` (maximal). -/
def digits1 : Str → Option Str
  | c :: rest => if c.isDigit then some (rest.dropWhile Char.isDigit) else none
  | [] => none

/-- First literal alternative that matches. -/
def litAlt : List Str → Str → Option Str
  | [], _ => none
  | w :: ws, s => match lit w s with
    | some r => some r
    | none => litAlt ws s

/-- A trailing `\b` boundary. -/
def wbEnd : Str → Option Str
  | [] => some []
  | c :: rest => if isWordChar c then none else some (c :: rest)

/-- Run a step list from the current position. -/
def pSeq (steps : List (Str → Option Str)) (s : Str) : Option Str :=
  steps.foldl (fun acc step => acc.bind step) (some s)

/-- Anchored match (`^...` without `re.MULTILINE`). -/
def startB (steps : List (Str → Option Str)) (text : Str) : Bool :=
  (pSeq steps text).isSome

/-- Unanchored `re.search`. -/
def searchB (steps : List (Str → Option Str)) (text : Str) : Bool :=
  anySuffix (fun s => (pSeq steps s).isSome) text

/-- `re.MULTILINE` `^...`: at position 0 or just after a newline. -/
def lineStartB (steps : List (Str → Option Str)) (text : Str) : Bool :=
  startB steps text ||
    anySuffix (fun s => match s with
      | '\n' :: rest => startB steps rest
      | _ => false) text

/-- Search with a leading `\b`: the position is the string start or follows
a non-word character. -/
def searchWB (steps : List (Str → Option Str)) (text : Str) : Bool :=
  let rec go (prev : Option Char) : Str → Bool
    | [] => (prev.all (fun c => !isWordChar c)) && (pSeq steps []).isSome
    | c :: rest =>
      ((prev.all (fun d => !isWordChar d)) && (pSeq steps (c :: rest)).isSome)
        || go (some c) rest
  go none text

/-- String-literal list to character-list list. -/
def strs (l : List String) : List Str := l.map String.toList

/-! ## Prompt classification (`DataReader.CLASSIFICATION_PATTERNS`) -/

/-- `X\s+(a\s+)?(alt|…)` with an optional one-word group. -/
def optGroupSearch (w g : Str) (alts : List Str) (t : Str) : Bool :=
  searchB [lit w, ws1, lit g, ws1, litAlt alts] t ||
    searchB [lit w, ws1, litAlt alts] t

/-- `show\s+(me\s+)?(the\s+)?file` (all four backtracking paths). -/
def showFileMatch (t : Str) : Bool :=
  searchB [lit ("show".toList), ws1, lit ("me".toList), ws1,
    lit ("the".toList), ws1, lit ("file".toList)] t ||
  searchB [lit ("show".toList), ws1, lit ("me".toList), ws1,
    lit ("file".toList)] t ||
  searchB [lit ("show".toList), ws1, lit ("the".toList), ws1,
    lit ("file".toList)] t ||
  searchB [lit ("show".toList), ws1, lit ("file".toList)] t

/-- The ordered classification table. -/
def CLASSIFICATION_PATTERNS : List (PromptCategory × List (Str → Bool)) :=
  [(.codeGeneration,
    [fun t => optGroupSearch ("write".toList) ("a".toList)
        (strs ["code", "function", "script", "class", "module"]) t,
     fun t => optGroupSearch ("create".toList) ("a".toList)
        (strs ["file", "component", "api", "endpoint"]) t,
     fun t => searchB [lit ("implement".toList), ws1] t,
     fun t => searchB [lit ("generate".toList), ws1,
        litAlt (strs ["code", "function"])] t,
     fun t => optGroupSearch ("add".toList) ("a".toList)
        (strs ["feature", "function", "method"]) t]),
   (.bugFix,
    [fun t => searchB [lit ("fix".toList), ws1] t,
     fun t => searchB [lit ("bug".toList), ws1] t,
     fun t => searchB [lit ("error".toList), ws1] t,
     fun t => searchB [lit ("not".toList), ws1, lit ("working".toList)] t,
     fun t => searchB [lit ("doesn".toList ++ [Char.ofNat 39, 't']), ws1,
        lit ("work".toList)] t,
     fun t => containsSub ("broken".toList) t,
     fun t => searchB [lit ("issue".toList), ws1, lit ("with".toList)] t,
     fun t => searchB [lit ("problem".toList), ws1, lit ("with".toList)] t]),
   (.codeReview,
    [fun t => searchB [lit ("explain".toList), ws1] t,
     fun t => searchB [lit ("what".toList), ws1,
        litAlt (strs ["does", "is"]), ws1] t,
     fun t => searchB [lit ("how".toList), ws1, lit ("does".toList), ws1] t,
     fun t => searchB [lit ("review".toList), ws1] t,
     fun t => searchB [lit ("understand".toList), ws1] t,
     fun t => searchB [lit ("why".toList), ws1,
        litAlt (strs ["does", "is"]), ws1] t]),
   (.refactoring,
    [fun t => searchB [lit ("refactor".toList), ws1] t,
     fun t => searchB [lit ("improve".toList), ws1] t,
     fun t => searchB [lit ("optimize".toList), ws1] t,
     fun t => searchB [lit ("clean".toList), ws1, lit ("up".toList)] t,
     fun t => containsSub ("restructure".toList) t]),
   (.testing,
    [fun t => searchB [lit ("test".toList), ws1] t,
     fun t => searchB [lit ("unit".toList), ws1, lit ("test".toList)] t,
     fun t => searchB [lit ("integration".toList), ws1, lit ("test".toList)] t,
     fun t => containsSub ("coverage".toList) t,
     fun t => containsSub ("pytest".toList) t,
     fun t => containsSub ("jest".toList) t]),
   (.documentation,
    [fun t => searchB [lit ("document".toList), ws1] t,
     fun t => containsSub ("readme".toList) t,
     fun t => containsSub ("docstring".toList) t,
     fun t => searchB [lit ("comment".toList), ws1] t,
     fun t => searchB [lit ("api".toList), ws1, lit ("doc".toList)] t]),
   (.configSetup,
    [fun t => searchB [lit ("config".toList), ws1] t,
     fun t => searchB [lit ("setup".toList), ws1] t,
     fun t => searchB [lit ("install".toList), ws1] t,
     fun t => containsSub ("environment".toList) t,
     fun t => containsSub ("docker".toList) t,
     fun t => containsSub ("deployment".toList) t]),
   (.gitOperations,
    [fun t => searchWB [lit ("git".toList), ws1] t,
     fun t => searchB [lit ("commit".toList), ws1] t,
     fun t => searchB [lit ("branch".toList), ws1] t,
     fun t => searchB [lit ("merge".toList), ws1] t,
     fun t => searchB [lit ("pull".toList), ws1, lit ("request".toList)] t,
     fun t => searchWB [lit ("pr".toList), wbEnd] t]),
   (.fileOperations,
    [fun t => optGroupSearch ("read".toList) ("the".toList)
        (strs ["file"]) t,
     fun t => optGroupSearch ("open".toList) ("the".toList)
        (strs ["file"]) t,
     fun t => showFileMatch t,
     fun t => searchB [lit ("list".toList), ws1,
        litAlt (strs ["files", "directory"])] t]),
   (.searchExplore,
    [fun t => searchB [lit ("search".toList), ws1] t,
     fun t => searchB [lit ("find".toList), ws1] t,
     fun t => searchB [lit ("where".toList), ws1,
        litAlt (strs ["is", "are"]), ws1] t,
     fun t => searchB [lit ("locate".toList), ws1] t,
     fun t => searchB [lit ("look".toList), ws1, lit ("for".toList)] t]),
   (.extendedThinking,
    [fun t => containsSub ("ultrathink".toList) t,
     fun t => containsSub ("megathink".toList) t,
     fun t => searchB [lit ("think".toList), ws1,
        litAlt (strs ["hard", "deep", "carefully"])] t,
     fun t => containsSub ("深度思考".toList) t,
     fun t => containsSub ("仔细想".toList) t]),
   (.question,
    [fun t => startB [litAlt (strs ["what", "how", "why", "when", "where",
        "can", "could", "would", "should", "is", "are", "do", "does"]),
        ws1] t,
     fun t => endsWith ("?".toList) t || endsWith ("?\n".toList) t])]

/-- CJK ideograph check `re.search(r"[一-鿿]", text)`. -/
def containsCJK (text : Str) : Bool :=
  text.any (fun c => 0x4E00 ≤ c.toNat && c.toNat ≤ 0x9FFF)

/-- `DataReader._classify_prompt`. -/
def classifyPrompt (text : Str) : List PromptCategory :=
  let textLower := lowerStr text
  let cats0 :=
    if containsCJK text then [PromptCategory.chineseLanguage] else []
  let cats := CLASSIFICATION_PATTERNS.foldl (fun acc catPats =>
    if (catPats.2.any (fun pm => pm textLower)) && !(acc.contains catPats.1)
    then acc ++ [catPats.1] else acc) cats0
  if cats = [] then [PromptCategory.general] else cats

/-- `DataReader.THINKING_TRIGGERS`. -/
def THINKING_TRIGGERS : List Str :=
  strs ["ultrathink", "megathink", "think harder", "think deeply",
    "think step by step"]

/-- `DataReader._create_prompt_data` (`thinking_triggers or []` collapses
`None` and `[]`; detection then fills in substring hits). -/
def createPromptData (text : Str) (timestamp : ℚ) (project : String)
    (sessionId : Option String) (thinkingTriggers : List Str)
    (hasImage : Bool) : PromptData :=
  let triggers :=
    if thinkingTriggers = [] then
      THINKING_TRIGGERS.filter (fun trig => containsSub trig (lowerStr text))
    else thinkingTriggers
  { text := text
    timestamp := timestamp
    project := project
    sessionId := sessionId
    charCount := text.length
    hasCodeBlock := hasCodeBlockRe text
    hasThinkingTrigger := !(triggers.isEmpty)
    thinkingTriggers := triggers
    hasImage := hasImage
    categories := classifyPrompt text }

/-! ## Timestamp parsing (`DataReader._parse_timestamp`)

A JSON timestamp field is an int/float (exact value as ℚ), a string, null,
or some other JSON value.  Results are modelled by the instant of the
returned timezone-aware datetime (epoch seconds, exact).
`datetime.fromisoformat` is modelled on the common dashed/coloned ISO-8601
forms (compact digit-only and week-date forms are outside the model). -/

/-- A raw timestamp value (`data.get("timestamp")`). -/
inductive TsValue
  | num (q : ℚ)
  | str (s : Str)
  | nullV
  | otherV
deriving DecidableEq

/-- Parsed `datetime` fields; `offsetSeconds = none` models a naive value. -/
structure PyDateTime where
  year : Nat
  month : Nat
  day : Nat
  hour : Nat
  minute : Nat
  second : Nat
  secFrac : ℚ
  offsetSeconds : Option Int
deriving DecidableEq

/-- Gregorian leap year. -/
def isLeapYear (y : Nat) : Bool :=
  y % 4 = 0 && (y % 100 ≠ 0 || y % 400 = 0)

def daysInMonth (y m : Nat) : Nat :=
  if m = 2 then (if isLeapYear y then 29 else 28)
  else if m = 4 || m = 6 || m = 9 || m = 11 then 30
  else 31

/-- Days from the epoch to a civil date (standard floor-division formula). -/
def daysFromCivil (y m d : Int) : Int :=
  let y' := y - (if m ≤ 2 then 1 else 0)
  let m' := m + (if 2 < m then -3 else 9)
  365 * y' + y'.fdiv 4 - y'.fdiv 100 + y'.fdiv 400 +
    (153 * m' + 2).fdiv 5 + d - 1 - 719468

/-- The instant of the wall-clock fields read as UTC. -/
def fieldsEpoch (dt : PyDateTime) : ℚ :=
  86400 * (daysFromCivil dt.year dt.month dt.day : ℚ) +
    3600 * dt.hour + 60 * dt.minute + dt.second + dt.secFrac

/-- The instant of the datetime; a naive value is converted with
`replace(tzinfo=timezone.utc)`. -/
def dtInstant (dt : PyDateTime) : ℚ :=
  match dt.offsetSeconds with
  | some off => fieldsEpoch dt - off
  | none => fieldsEpoch dt

def digitVal (c : Char) : Nat := c.toNat - 48

/-- Exactly `n` decimal digits. -/
def parseNDigitsAux (acc : Nat) : Nat → Str → Option (Nat × Str)
  | 0, s => some (acc, s)
  | n + 1, c :: rest =>
    if c.isDigit then parseNDigitsAux (acc * 10 + digitVal c) n rest else none
  | _ + 1, [] => none

def parseNDigits (n : Nat) (s : Str) : Option (Nat × Str) :=
  parseNDigitsAux 0 n s

/-- Fractional seconds: one or more digits, truncated to 6 places. -/
def parseFrac (s : Str) : Option (ℚ × Str) :=
  let ds := s.takeWhile Char.isDigit
  if ds = [] then none
  else some ((ds.take 6).foldr (fun c acc => ((digitVal c : ℚ) + acc) / 10) 0,
    s.dropWhile Char.isDigit)

/-- `HH[:MM[:SS[.ffffff]]]`. -/
def parseTimePart (s : Str) : Option (Nat × Nat × Nat × ℚ × Str) :=
  match parseNDigits 2 s with
  | none => none
  | some (h, r1) =>
    match r1 with
    | ':' :: r2 =>
      match parseNDigits 2 r2 with
      | none => none
      | some (mi, r3) =>
        match r3 with
        | ':' :: r4 =>
          match parseNDigits 2 r4 with
          | none => none
          | some (sec, r5) =>
            match r5 with
            | '.' :: r6 =>
              match parseFrac r6 with
              | none => none
              | some (f, r7) => some (h, mi, sec, f, r7)
            | ',' :: r6 =>
              match parseFrac r6 with
              | none => none
              | some (f, r7) => some (h, mi, sec, f, r7)
            | _ => some (h, mi, sec, 0, r5)
        | _ => some (h, mi, 0, 0, r3)
    | _ => some (h, 0, 0, 0, r1)

/-- `±HH[:MM[:SS]]` after the sign, in seconds. -/
def parseOffsetHMS (s : Str) : Option Int :=
  match parseNDigits 2 s with
  | none => none
  | some (oh, r1) =>
    match r1 with
    | [] => if oh ≤ 23 then some (3600 * oh) else none
    | ':' :: r2 =>
      match parseNDigits 2 r2 with
      | none => none
      | some (om, r3) =>
        match r3 with
        | [] =>
          if oh ≤ 23 && om ≤ 59 then some (3600 * oh + 60 * om) else none
        | ':' :: r4 =>
          match parseNDigits 2 r4 with
          | none => none
          | some (os, r5) =>
            if r5 = [] && oh ≤ 23 && om ≤ 59 && os ≤ 59 then
              some (3600 * oh + 60 * om + os)
            else none
        | _ => none
    | _ => none

/-- Offset suffix: empty (naive), `Z`/`z`, or a signed `HH:MM[:SS]`. -/
def parseOffsetSuffix (s : Str) : Option (Option Int) :=
  match s with
  | [] => some none
  | 'Z' :: rest => if rest = [] then some (some 0) else none
  | 'z' :: rest => if rest = [] then some (some 0) else none
  | '+' :: rest => (parseOffsetHMS rest).map (fun off => some off)
  | '-' :: rest => (parseOffsetHMS rest).map (fun off => some (-off))
  | _ => none

/-- `datetime.fromisoformat` on the modelled subset: `YYYY-MM-DD`, an
arbitrary one-character separator, `HH[:MM[:SS[.ffffff]]]`, and an
optional offset. -/
def fromIsoformat (s : Str) : Option PyDateTime :=
  match parseNDigits 4 s with
  | none => none
  | some (y, r1) =>
    match r1 with
    | '-' :: r2 =>
      match parseNDigits 2 r2 with
      | none => none
      | some (mo, r3) =>
        match r3 with
        | '-' :: r4 =>
          match parseNDigits 2 r4 with
          | none => none
          | some (d, r5) =>
            if 1 ≤ y && 1 ≤ mo && mo ≤ 12 && 1 ≤ d && d ≤ daysInMonth y mo
            then
              match r5 with
              | [] => some ⟨y, mo, d, 0, 0, 0, 0, none⟩
              | _sep :: r6 =>
                match parseTimePart r6 with
                | none => none
                | some (h, mi, sec, f, r7) =>
                  if h ≤ 23 && mi ≤ 59 && sec ≤ 59 then
                    match parseOffsetSuffix r7 with
                    | none => none
                    | some off => some ⟨y, mo, d, h, mi, sec, f, off⟩
                  else none
            else none
        | _ => none
    | _ => none

/-- `ts.replace("Z", "+00:00")`. -/
def replaceZ (s : Str) : Str :=
  s.flatMap (fun c => if c = 'Z' then "+00:00".toList else [c])

/-- Lower bound of `datetime.fromtimestamp(·, tz=utc)`:
0001-01-01T00:00:00Z. -/
def FROMTIMESTAMP_MIN : ℚ := -62135596800

/-- Upper bound (exclusive): 9999-12-31T23:59:59.999999Z plus one
microsecond. -/
def FROMTIMESTAMP_MAX : ℚ := 253402300800

/-- Outcome of one `_parse_timestamp` call: a returned aware datetime
(its instant), a returned `None`, or an exception the function leaves
uncaught, propagating to its caller. -/
inductive TsResult
  | ok (instant : ℚ)
  | isNone
  | raises
deriving DecidableEq

/-- Bounds of the 64-bit platform `time_t` (seconds). -/
def TIME_T_MIN : ℚ := -(2 ^ 63)

def TIME_T_MAX : ℚ := 2 ^ 63 - 1

/-- `datetime.fromtimestamp(sec, tz=timezone.utc)` as called under
`except (ValueError, OSError)`: seconds that do not fit the platform
`time_t` raise `OverflowError`, which that handler does NOT catch (the
same uncaught outcome the `ts / 1000` division itself produces when a
huge int overflows the float range); `time_t`-representable seconds
outside years 1-9999 raise `ValueError`, caught into `None`; otherwise
the instant is returned (sub-microsecond rounding at the boundary is not
modelled). -/
def fromtimestampUtcE (sec : ℚ) : TsResult :=
  if sec < TIME_T_MIN ∨ TIME_T_MAX < sec then .raises
  else if FROMTIMESTAMP_MIN ≤ sec ∧ sec < FROMTIMESTAMP_MAX then .ok sec
  else .isNone

/-- The non-raising projection of `fromtimestampUtcE`: the instant when a
datetime is returned, `none` otherwise. -/
def fromtimestampUtc (sec : ℚ) : Option ℚ :=
  match fromtimestampUtcE sec with
  | .ok t => some t
  | _ => none

/-- `DataReader._parse_timestamp`, as the returned value when no
exception propagates (the `.ok`-projection of `parseTimestampE` below);
this is what the record-handling model consumes. -/
def parseTimestamp : TsValue → Option ℚ
  | .nullV => none
  | .num q => fromtimestampUtc (q / 1000)
  | .str s =>
    -- if ts.endswith("Z"): ts = ts[:-1] + "+00:00"  (rebinding persists)
    let s1 := if endsWith ['Z'] s then s.dropLast ++ "+00:00".toList else s
    match fromIsoformat (replaceZ s1) with
    | some dt => some (dtInstant dt)
    | none =>
      -- datetime.fromisoformat(ts.split("+")[0].split("Z")[0])
      --   .replace(tzinfo=timezone.utc)
      match fromIsoformat ((s1.takeWhile (· ≠ '+')).takeWhile (· ≠ 'Z')) with
      | some dt => some (fieldsEpoch dt)
      | none => none
  | .otherV => none

/-- `DataReader._parse_timestamp` with its exception behaviour.  Only the
numeric branch can raise (uncaught `OverflowError` from `ts / 1000` or
`fromtimestamp`); the string branch raises only `ValueError` inside its
two `try` blocks, both caught, so it never propagates; `None` and other
types return `None` directly. -/
def parseTimestampE : TsValue → TsResult
  | .nullV => .isNone
  | .num q => fromtimestampUtcE (q / 1000)
  | .str s =>
    match parseTimestamp (.str s) with
    | some t => .ok t
    | none => .isNone
  | .otherV => .isNone

/-! ## Session files (`DataReader._parse_session_file`) -/

/-- One element of a list-shaped `message.content`. -/
inductive ContentItem
  | textBlock (s : Str)
  | imageBlock
  | otherBlock
  | plainItem (s : Str)
deriving DecidableEq

/-- `message.content`: a plain string, a block list, or another shape. -/
inductive MessageContent
  | plain (s : Str)
  | blocks (items : List ContentItem)
  | other
deriving DecidableEq

/-- `DataReader._extract_content`. -/
def extractContent : MessageContent → Str × Bool
  | .plain s => (pyStrip s, false)
  | .blocks items =>
    let textParts := items.filterMap (fun it =>
      match it with
      | .textBlock s => some s
      | .plainItem s => some s
      | _ => none)
    (pyStrip (List.intercalate ['\n'] textParts),
     items.any (fun it => it == .imageBlock))
  | .other => ([], false)

/-- One parsed JSON line of a session file.  `malformed` stands for an
unparsable line (skipped). -/
inductive SessionLine
  | user (isMeta : Bool) (ts : TsValue) (content : MessageContent)
      (triggers : List Str)
  | assistant (inputTokens outputTokens : Nat)
  | otherLine
  | malformed
deriving DecidableEq

/-- The record-filtering fold of `_parse_session_file`: surviving prompts
(in file order) and the two token counters. -/
def sessionFoldStep (cutoff : ℚ) (sessionId : String) (projectName : String)
    (acc : List PromptData × Nat × Nat) (line : SessionLine) :
    List PromptData × Nat × Nat :=
  match line with
  | .user isMeta ts content triggers =>
    if isMeta then acc
    else
      match parseTimestamp ts with
      | some t =>
        if cutoff ≤ t then
          let tb := extractContent content
          if tb.1 = [] || startsWith ("<command".toList) tb.1 then acc
          else
            (acc.1 ++ [createPromptData tb.1 t projectName (some sessionId)
              triggers tb.2], acc.2)
        else acc
      | none => acc
  | .assistant inTok outTok => (acc.1, acc.2.1 + inTok, acc.2.2 + outTok)
  | .otherLine => acc
  | .malformed => acc

/-- The surviving prompts and token totals of a session file. -/
def sessionFold (lines : List SessionLine) (cutoff : ℚ) (sessionId : String)
    (projectName : String) : List PromptData × Nat × Nat :=
  lines.foldl (sessionFoldStep cutoff sessionId projectName) ([], 0, 0)

/-- `DataReader._parse_session_file` (the file name yields `sessionId`, the
directory name the decoded `projectName`). -/
def parseSessionFile (lines : List SessionLine) (cutoff : ℚ)
    (sessionId : String) (projectName : String)
    (projectFilter : Option String) : Option SessionData :=
  if (match projectFilter with
      | some f => !(containsSub f.toList projectName.toList)
      | none => false) then none
  else
    let res := sessionFold lines cutoff sessionId projectName
    if res.1 = [] then none
    else
      match List.insertionSort
          (fun a b : PromptData => a.timestamp ≤ b.timestamp) res.1 with
      | [] => none  -- unreachable: sorting preserves non-emptiness
      | p0 :: rest =>
        some { sessionId := sessionId
               project := projectName
               prompts := p0 :: rest
               totalPrompts := (p0 :: rest).length
               startTime := p0.timestamp
               endTime := (List.getLast (p0 :: rest)
                 (List.cons_ne_nil p0 rest)).timestamp
               totalInputTokens := res.2.1
               totalOutputTokens := res.2.2 }

instance : IsTotal PromptData (fun a b => a.timestamp ≤ b.timestamp) :=
  ⟨fun a b => le_total a.timestamp b.timestamp⟩

instance : IsTrans PromptData (fun a b => a.timestamp ≤ b.timestamp) :=
  ⟨fun _ _ _ => le_trans⟩

theorem pairwise_head_le {l : List PromptData} (hne : l ≠ [])
    (hpw : List.Pairwise (fun a b : PromptData =>
      a.timestamp ≤ b.timestamp) l) :
    ∀ p ∈ l, (l.head hne).timestamp ≤ p.timestamp := by
  cases l with
  | nil => exact absurd rfl hne
  | cons a t =>
    intro p hp
    rcases List.mem_cons.mp hp with rfl | hp'
    · exact le_refl _
    · exact List.rel_of_pairwise_cons hpw hp'

theorem pairwise_le_getLast :
    ∀ (l : List PromptData) (hne : l ≠ []),
    List.Pairwise (fun a b : PromptData => a.timestamp ≤ b.timestamp) l →
    ∀ p ∈ l, p.timestamp ≤ (l.getLast hne).timestamp := by
  intro l
  induction l with
  | nil => intro hne; exact absurd rfl hne
  | cons a t ih =>
    intro hne hpw p hp
    cases t with
    | nil =>
      rcases List.mem_singleton.mp hp with rfl
      simp [List.getLast]
    | cons b t' =>
      rw [List.getLast_cons (List.cons_ne_nil b t')]
      rcases List.mem_cons.mp hp with rfl | hp'
      · exact List.rel_of_pairwise_cons hpw
          (List.getLast_mem (List.cons_ne_nil b t'))
      · exact ih (List.cons_ne_nil b t') (List.pairwise_cons.mp hpw).2 p hp'

/-- C3: a parsed session exists only when the surviving prompt set is
non-empty; its prompts are sorted non-decreasing by timestamp,
`start_time`/`end_time` are the first/last prompt timestamps, and every
prompt timestamp lies between them. -/
theorem C3_session_invariants (lines : List SessionLine) (cutoff : ℚ)
    (sid proj : String) (filt : Option String) :
    ((sessionFold lines cutoff sid proj).1 = [] →
      parseSessionFile lines cutoff sid proj filt = none) ∧
    (∀ s, parseSessionFile lines cutoff sid proj filt = some s →
      s.prompts ≠ [] ∧
      List.Pairwise (fun a b : PromptData =>
        a.timestamp ≤ b.timestamp) s.prompts ∧
      (∃ h : s.prompts ≠ [],
        s.startTime = (s.prompts.head h).timestamp ∧
        s.endTime = (s.prompts.getLast h).timestamp) ∧
      (∀ p ∈ s.prompts,
        s.startTime ≤ p.timestamp ∧ p.timestamp ≤ s.endTime)) := by
  constructor
  · intro hempty
    unfold parseSessionFile
    split_ifs with hf
    · rfl
    · dsimp only
      rw [if_pos hempty]
  · intro s hs
    unfold parseSessionFile at hs
    split_ifs at hs with hf
    dsimp only at hs
    by_cases hres : (sessionFold lines cutoff sid proj).1 = []
    · rw [if_pos hres] at hs
      exact absurd hs (by simp)
    · rw [if_neg hres] at hs
      have hpwall : List.Pairwise (fun a b : PromptData =>
          a.timestamp ≤ b.timestamp)
          (List.insertionSort (fun a b : PromptData =>
            a.timestamp ≤ b.timestamp)
            (sessionFold lines cutoff sid proj).1) :=
        List.sorted_insertionSort _ _
      rcases hsort : List.insertionSort (fun a b : PromptData =>
          a.timestamp ≤ b.timestamp)
          (sessionFold lines cutoff sid proj).1 with _ | ⟨p0, rest⟩
      · rw [hsort] at hs
        exact absurd hs (by simp)
      · rw [hsort] at hs
        rw [hsort] at hpwall
        dsimp only at hs
        obtain rfl := Option.some.inj hs
        refine ⟨List.cons_ne_nil p0 rest, hpwall,
          ⟨List.cons_ne_nil p0 rest, rfl, rfl⟩, ?_⟩
        intro p hp
        exact ⟨pairwise_head_le (List.cons_ne_nil p0 rest) hpwall p hp,
          pairwise_le_getLast _ (List.cons_ne_nil p0 rest) hpwall p hp⟩

/-! ## AntipatternEngine (services/antipattern_engine.py) -/

/-- `AntipatternEngine._generate_id`: the md5 preimage
`f"{timestamp.isoformat()}_{text[:50]}_{rule_name}"`. -/
def generateId (p : PromptData) (ruleName : String) : Str :=
  (toString p.timestamp).toList ++ '_' :: (p.text.take 50 ++ '_' :: ruleName.toList)

/-- The per-prompt rule context built by `detect_all`. -/
structure RuleContext where
  sessionId : String
  previousPrompts : List PromptData
  positionInSession : Nat
  sessionLength : Nat

/-- Confirmation tokens exempted from toothpaste detection. -/
def CONFIRMATIONS : List Str :=
  strs ["yes", "no", "ok", "好", "是", "否", "y", "n", "确定", "取消"]

/-- `AntipatternEngine.VAGUE_WORDS`. -/
def VAGUE_WORDS : List Str :=
  strs ["帮我", "搞一下", "弄一个", "做一下",
    "优化一下", "改改", "看看", "处理",
    "合适的", "好的", "正确的", "漂亮的",
    "更好", "更快", "更优", "等等", "之类的",
    "你先试试", "这里不对", "有问题"]

/-- `^(还有|另外|补充一下|对了|顺便)`. -/
def followupMatch1 (t : Str) : Bool :=
  startB [litAlt (strs ["还有", "另外", "补充一下", "对了", "顺便"])] t

/-- `^(再|也|还).*一下` (`.` does not cross a newline). -/
def followupMatch2 (t : Str) : Bool :=
  match litAlt (strs ["再", "也", "还"]) t with
  | some r => containsSub ("一下".toList) (r.takeWhile (· ≠ '\n'))
  | none => false

/-- `^(那|那么).*(呢|吗)\??$`. -/
def followupMatch3 (t : Str) : Bool :=
  match lit ("那".toList) t with
  | some r =>
    let fl := r.takeWhile (· ≠ '\n')
    let after := r.dropWhile (· ≠ '\n')
    (after = [] || after = ['\n']) &&
      (endsWith ("呢".toList) fl || endsWith ("吗".toList) fl ||
       endsWith ("呢?".toList) fl || endsWith ("吗?".toList) fl)
  | none => false

/-- `^刚才.*忘了说`. -/
def followupMatch4 (t : Str) : Bool :=
  match lit ("刚才".toList) t with
  | some r => containsSub ("忘了说".toList) (r.takeWhile (· ≠ '\n'))
  | none => false

/-- `^我忘记说了`. -/
def followupMatch5 (t : Str) : Bool :=
  startB [lit ("我忘记说了".toList)] t

/-- `AntipatternEngine.FOLLOWUP_PATTERNS` as matchers. -/
def FOLLOWUP_MATCHERS : List (Str → Bool) :=
  [followupMatch1, followupMatch2, followupMatch3, followupMatch4,
   followupMatch5]

/-- The backward scan over the up-to-5 previous same-session prompts:
consecutive (from the end) prompts of stripped length < 20. -/
def countConsecutiveShort (previous : List PromptData) : Nat :=
  ((previous.reverse.take 5).takeWhile
    (fun prev => (pyStrip prev.text).length < 20)).length

/-- `AntipatternEngine._detect_toothpaste`. -/
def detectToothpaste (prompt : PromptData) (ctx : RuleContext) :
    List AntipatternMatch :=
  let text := pyStrip prompt.text
  if CONFIRMATIONS.contains (lowerStr text) then []
  else if 20 ≤ text.length then []
  else
    let consecutiveShort := countConsecutiveShort ctx.previousPrompts
    let m1 : List AntipatternMatch :=
      if 3 - 1 ≤ consecutiveShort then
        [{ id := generateId prompt ("toothpaste")
           type := .toothpaste
           severity := if consecutiveShort < 5 then .medium else .high
           promptExcerpt := text.take 100
           timestamp := prompt.timestamp
           project := prompt.project
           sessionId := prompt.sessionId
           confidence := min ((0.5 : ℚ) + consecutiveShort * 0.1) 0.95
           explanation := "连续 " ++ toString (consecutiveShort + 1) ++
             " 条短 prompt (<20字)，信息碎片化严重"
           fixSuggestion :=
             "将相关需求整合到一个完整的 prompt 中，一次性说清楚背景、目标和约束" }]
      else []
    let m2 : List AntipatternMatch :=
      if FOLLOWUP_MATCHERS.any (fun pm => pm text) then
        [{ id := generateId prompt ("toothpaste_followup")
           type := .toothpaste
           severity := .low
           promptExcerpt := text.take 100
           timestamp := prompt.timestamp
           project := prompt.project
           sessionId := prompt.sessionId
           confidence := 0.7
           explanation := "检测到追问模式，这个信息可以在初始提问时一起提供"
           fixSuggestion := "在首次提问时就包含所有相关信息和需求" }]
      else []
    m1 ++ m2

/-- `(Traceback|Error:|Exception:|at \w+\.\w+\(|Stack trace:|panic:)`. -/
def hasStacktrace (text : Str) : Bool :=
  containsSub ("Traceback".toList) text ||
  containsSub ("Error:".toList) text ||
  containsSub ("Exception:".toList) text ||
  searchB [lit ("at ".toList), wchars1, lit (['.']), wchars1,
    lit (['('])] text ||
  containsSub ("Stack trace:".toList) text ||
  containsSub ("panic:".toList) text

/-- `AntipatternEngine._detect_raw_paste`. -/
def detectRawPaste (prompt : PromptData) (_ctx : RuleContext) :
    List AntipatternMatch :=
  let text := prompt.text
  if text.length < 100 then []
  else
    let codeBlocks := findCodeBlocks text
    let codeLength := (codeBlocks.map List.length).sum
    let codeRatio : ℚ :=
      if 0 < text.length then (codeLength : ℚ) / text.length else 0
    let nonCodeText := pyStrip (removeCodeBlocks text)
    let hasExplanation : Bool := 30 < nonCodeText.length
    let excerpt :=
      if 150 < text.length then text.take 150 ++ ("...".toList) else text
    let m1 : List AntipatternMatch :=
      if (0.7 : ℚ) < codeRatio && !hasExplanation then
        [{ id := generateId prompt ("raw_paste_code")
           type := .rawPaste
           severity := .high
           promptExcerpt := excerpt
           timestamp := prompt.timestamp
           project := prompt.project
           sessionId := prompt.sessionId
           confidence := 0.85
           explanation := "代码占比 " ++ fmtPct0 codeRatio ++
             "，但缺少问题描述和期望结果"
           fixSuggestion := "在代码前添加：1) 问题描述 2) 期望行为 3) 已尝试的方案" }]
      else []
    let m2 : List AntipatternMatch :=
      if hasStacktrace text && !hasExplanation then
        [{ id := generateId prompt ("raw_paste_error")
           type := .rawPaste
           severity := .critical
           promptExcerpt := excerpt
           timestamp := prompt.timestamp
           project := prompt.project
           sessionId := prompt.sessionId
           confidence := 0.9
           explanation := "直接粘贴错误信息而未说明触发场景和期望"
           fixSuggestion := "说明：1) 触发错误的操作 2) 环境信息 3) 期望的正确行为" }]
      else []
    let m3 : List AntipatternMatch :=
      if 2000 < text.length && !hasExplanation then
        [{ id := generateId prompt ("raw_paste_long")
           type := .rawPaste
           severity := .medium
           promptExcerpt := excerpt
           timestamp := prompt.timestamp
           project := prompt.project
           sessionId := prompt.sessionId
           confidence := 0.75
           explanation := "大段内容 (" ++ toString text.length ++
             " 字符) 缺少上下文说明"
           fixSuggestion := "添加简要说明：这是什么内容？你希望我做什么？" }]
      else []
    m1 ++ m2 ++ m3

/-- `AntipatternEngine._detect_vague_instruction`. -/
def detectVagueInstruction (prompt : PromptData) (_ctx : RuleContext) :
    List AntipatternMatch :=
  let text := pyStrip prompt.text
  if endsWith (['?']) text || endsWith ("？".toList) text then []
  else
    let textLower := lowerStr text
    let foundVague := VAGUE_WORDS.filter (fun w => containsSub w textLower)
    let m1 : List AntipatternMatch :=
      if 2 ≤ foundVague.length then
        [{ id := generateId prompt ("vague_words")
           type := .vagueInstruction
           severity := .medium
           promptExcerpt := text.take 100
           timestamp := prompt.timestamp
           project := prompt.project
           sessionId := prompt.sessionId
           confidence := 0.7
           explanation := "模糊词汇: " ++ String.intercalate ", "
             ((foundVague.take 3).map (fun w => String.mk w)) ++
             "，可能导致结果不符合预期"
           fixSuggestion := "用具体的数值、标准或示例替代模糊表达" }]
      else []
    let m2 : List AntipatternMatch :=
      if text.length < 15 &&
          !(endsWith (['?']) text || endsWith ("？".toList) text) then
        [{ id := generateId prompt ("vague_short")
           type := .vagueInstruction
           severity := .high
           promptExcerpt := text
           timestamp := prompt.timestamp
           project := prompt.project
           sessionId := prompt.sessionId
           confidence := 0.8
           explanation := "指令仅 " ++ toString text.length ++
             " 字，缺乏必要的上下文和约束"
           fixSuggestion := "添加：背景信息、具体要求、输出格式、约束条件" }]
      else []
    m1 ++ m2

/-- `AntipatternEngine._detect_context_explosion`. -/
def detectContextExplosion (sessionPrompts : List PromptData)
    (sessionId : String) : List AntipatternMatch :=
  if sessionPrompts.length < 50 then []
  else
    match sessionPrompts.getLast? with
    | none => []
    | some lastPrompt =>
      let sc : Severity × ℚ :=
        if 100 ≤ sessionPrompts.length then (.critical, 0.95)
        else (.high, 0.85)
      [{ id := generateId lastPrompt
           ("context_explosion_" ++ toString sessionPrompts.length)
         type := .contextExplosion
         severity := sc.1
         promptExcerpt :=
           ("Session with " ++ toString sessionPrompts.length ++
             " prompts").toList
         timestamp := lastPrompt.timestamp
         project := lastPrompt.project
         sessionId := some sessionId
         confidence := sc.2
         explanation := "会话已有 " ++ toString sessionPrompts.length ++
           " 条消息，上下文可能过大影响性能"
         fixSuggestion := "考虑使用 /clear 开启新会话，或总结当前进展后重新开始" }]

/-- `prompt.session_id or "unknown"` (empty string is falsy). -/
def sessionKeyOf (p : PromptData) : String :=
  match p.sessionId with
  | some s => if s = "" then "unknown" else s
  | none => "unknown"

/-- `defaultdict(list)` grouping preserving first-seen key order. -/
def addToGroup : List (String × List PromptData) → String → PromptData →
    List (String × List PromptData)
  | [], key, p => [(key, [p])]
  | (k, ps) :: rest, key, p =>
    if k = key then (k, ps ++ [p]) :: rest
    else (k, ps) :: addToGroup rest key p

def groupBySession (prompts : List PromptData) :
    List (String × List PromptData) :=
  prompts.foldl (fun groups p => addToGroup groups (sessionKeyOf p) p) []

/-- The rule battery `self._rules`, in order. -/
def promptRules (prompt : PromptData) (ctx : RuleContext) :
    List AntipatternMatch :=
  detectToothpaste prompt ctx ++ detectRawPaste prompt ctx ++
    detectVagueInstruction prompt ctx

/-- `AntipatternEngine.detect_all`. -/
def detectAll (prompts : List PromptData) : List AntipatternMatch :=
  let sortedGroups := (groupBySession prompts).map (fun g =>
    (g.1, List.insertionSort
      (fun a b : PromptData => a.timestamp ≤ b.timestamp) g.2))
  let promptMatches := sortedGroups.flatMap (fun g =>
    (g.2.enum).flatMap (fun ip =>
      promptRules ip.2
        { sessionId := g.1
          previousPrompts := g.2.take ip.1
          positionInSession := ip.1
          sessionLength := g.2.length }))
  let sessionMatches :=
    sortedGroups.flatMap (fun g => detectContextExplosion g.2 g.1)
  promptMatches ++ sessionMatches

/-! ## C5: a lone oversized fenced block fires both unexplained-dump
sub-rules -/

theorem splitFence_fence_start (rest : Str) :
    splitFence ('`' :: '`' :: '`' :: rest) = some ([], rest) := by
  rw [splitFence, if_pos (by simp [isFenceStart, List.isPrefixOf])]
  rfl

theorem splitFence_append_fence (inner : Str) (h : '`' ∉ inner) :
    splitFence (inner ++ ['`', '`', '`']) = some (inner, []) := by
  induction inner with
  | nil => rfl
  | cons c tail ih =>
    have hc : c ≠ '`' := fun hceq => h (by simp [hceq])
    rw [List.cons_append, splitFence]
    rw [if_neg (by
      intro hf
      obtain ⟨t, ht⟩ := List.isPrefixOf_iff_prefix.mp hf
      rw [List.cons_append, List.cons_append, List.cons_append,
        List.nil_append] at ht
      injection ht with h1 h2
      exact hc h1.symm)]
    rw [ih (fun hd => h (List.mem_cons_of_mem c hd))]
    rfl

theorem findCodeBlocks_nil : findCodeBlocks [] = [] := by
  rw [findCodeBlocks_unfold]
  rfl

theorem findCodeBlocks_single (inner : Str) (h : '`' ∉ inner) :
    findCodeBlocks ('`' :: '`' :: '`' :: (inner ++ ['`', '`', '`'])) =
      ['`' :: '`' :: '`' :: (inner ++ ['`', '`', '`'])] := by
  rw [findCodeBlocks_unfold]
  simp only [splitFence_fence_start, splitFence_append_fence inner h]
  rw [findCodeBlocks_nil]

theorem removeCodeBlocks_nil : removeCodeBlocks [] = [] := by
  rw [removeCodeBlocks_unfold]
  rfl

theorem removeCodeBlocks_single (inner : Str) (h : '`' ∉ inner) :
    removeCodeBlocks ('`' :: '`' :: '`' :: (inner ++ ['`', '`', '`'])) = [] := by
  rw [removeCodeBlocks_unfold]
  simp only [splitFence_fence_start, splitFence_append_fence inner h]
  rw [removeCodeBlocks_nil]
  rfl

/-- C5: for a prompt whose text is one fenced code block longer than 2000
characters with nothing outside it, the unexplained-dump rule fires both
the code-heavy sub-case (HIGH, 0.85) and the long-unexplained sub-case
(MEDIUM, 0.75). -/
theorem C5_unexplained_dump_both (p : PromptData) (ctx : RuleContext)
    (inner : Str)
    (htext : p.text = '`' :: '`' :: '`' :: (inner ++ ['`', '`', '`']))
    (hnb : '`' ∉ inner) (hlen : 2000 < p.text.length) :
    (∃ m ∈ detectRawPaste p ctx, m.type = .rawPaste ∧
      m.severity = .high ∧ m.confidence = 0.85) ∧
    (∃ m ∈ detectRawPaste p ctx, m.type = .rawPaste ∧
      m.severity = .medium ∧ m.confidence = 0.75) := by
  have hblocks : findCodeBlocks p.text = [p.text] := by
    rw [htext]; exact findCodeBlocks_single inner hnb
  have hremove : removeCodeBlocks p.text = [] := by
    rw [htext]; exact removeCodeBlocks_single inner hnb
  have hlenpos : 0 < p.text.length := by omega
  have hlen100 : ¬ (p.text.length < 100) := by omega
  have hlenq : ((p.text.length : ℚ)) ≠ 0 := by
    exact_mod_cast Nat.pos_iff_ne_zero.mp hlenpos
  unfold detectRawPaste
  rw [if_neg hlen100]
  dsimp only
  rw [hblocks, hremove]
  have hratio : (([p.text].map List.length).sum : ℚ) = (p.text.length : ℚ) := by
    simp
  have hcond1 : ((0.7 : ℚ) <
      (if 0 < p.text.length then
        ((([p.text].map List.length).sum : ℚ)) / (p.text.length : ℚ) else 0) &&
      !(30 < (pyStrip []).length : Bool)) = true := by
    rw [if_pos hlenpos, hratio, div_self hlenq]
    simp only [Bool.and_eq_true, decide_eq_true_eq, Bool.not_eq_true']
    constructor
    · norm_num
    · simp [pyStrip, pyLStrip, pyRStrip]
  have hcond3 : ((2000 < p.text.length : Bool) &&
      !(30 < (pyStrip []).length : Bool)) = true := by
    simp only [Bool.and_eq_true, decide_eq_true_eq, Bool.not_eq_true']
    constructor
    · exact hlen
    · simp [pyStrip, pyLStrip, pyRStrip]
  rw [if_pos hcond1, if_pos hcond3]
  constructor
  · refine ⟨_, List.mem_append_left _ (List.mem_append_left _
      (List.mem_cons_self _ _)), rfl, rfl, rfl⟩
  · refine ⟨_, List.mem_append_right _ (List.mem_cons_self _ _),
      rfl, rfl, rfl⟩

/-- A 3000-character prompt that is one fenced code block and nothing
else. -/
def c5prompt : PromptData :=
  { text := '`' :: '`' :: '`' :: (List.replicate 2994 'a' ++ ['`', '`', '`']),
    timestamp := 5, project := "p", charCount := 3000 }

def c5ctx : RuleContext :=
  { sessionId := "s1", previousPrompts := [], positionInSession := 0,
    sessionLength := 1 }

theorem C5_unexplained_dump_both_witness :
    (∃ m ∈ detectRawPaste c5prompt c5ctx, m.type = .rawPaste ∧
      m.severity = .high ∧ m.confidence = 0.85) ∧
    (∃ m ∈ detectRawPaste c5prompt c5ctx, m.type = .rawPaste ∧
      m.severity = .medium ∧ m.confidence = 0.75) :=
  C5_unexplained_dump_both c5prompt c5ctx (List.replicate 2994 'a')
    rfl
    (fun hmem => absurd (List.eq_of_mem_replicate hmem) (by decide))
    (by show 2000 < ('`' :: '`' :: '`'
        :: (List.replicate 2994 'a' ++ ['`', '`', '`'])).length
        rw [List.length_cons, List.length_cons, List.length_cons,
          List.length_append, List.length_replicate]
        norm_num)

/-- C9: a prompt whose stripped text lowercases to a bare confirmation
token (such as "ok" in any letter case) never fires the fragmented-input
rule, whatever the preceding context. -/
theorem C9_confirmation_exempt (prompt : PromptData) (ctx : RuleContext)
    (h : lowerStr (pyStrip prompt.text) ∈ CONFIRMATIONS) :
    detectToothpaste prompt ctx = [] := by
  unfold detectToothpaste
  rw [if_pos (by simpa using h)]

/-- A bare mixed-case confirmation after two short same-session prompts. -/
def c9prompt : PromptData :=
  { text := " OK ".toList, timestamp := 10, project := "p",
    sessionId := some ("s1"), charCount := 4 }

def c9ctx : RuleContext :=
  { sessionId := "s1",
    previousPrompts :=
      [{ text := "a".toList, timestamp := 8, project := "p",
         charCount := 1 },
       { text := "b".toList, timestamp := 9, project := "p",
         charCount := 1 }],
    positionInSession := 2, sessionLength := 3 }

theorem C9_confirmation_exempt_witness :
    detectToothpaste c9prompt c9ctx = [] :=
  C9_confirmation_exempt c9prompt c9ctx (by decide)

/-- The C4 scenario: 49 short (15-character) prompts in one session. -/
def scenario49 : List PromptData :=
  (List.range 49).map (fun i =>
    { text := "please continue".toList
      timestamp := (i : ℚ)
      project := "proj"
      sessionId := some ("s1")
      charCount := 15 })

/-- C4: the context-overflow rule fires exactly on sessions of 50 or more
prompts, emitting one match anchored to the session's last prompt with
HIGH/0.85 (CRITICAL/0.95 from 100); a 49-short-prompt session fires no
context-overflow match but fires multiple fragmented-input matches. -/
theorem C4_context_overflow :
    (∀ (session : List PromptData) (sid : String),
      (detectContextExplosion session sid = [] ↔ session.length < 50) ∧
      (∀ lastP, session.getLast? = some lastP → 50 ≤ session.length →
        ∃ m, detectContextExplosion session sid = [m] ∧
          m.type = .contextExplosion ∧ m.timestamp = lastP.timestamp ∧
          ((session.length < 100 ∧ m.severity = .high ∧
            m.confidence = 0.85) ∨
           (100 ≤ session.length ∧ m.severity = .critical ∧
            m.confidence = 0.95)))) ∧
    ((detectAll scenario49).countP
      (fun m => m.type == AntipatternType.contextExplosion) = 0 ∧
     2 ≤ (detectAll scenario49).countP
      (fun m => m.type == AntipatternType.toothpaste)) := by
  constructor
  · intro session sid
    constructor
    · unfold detectContextExplosion
      by_cases hlt : session.length < 50
      · rw [if_pos hlt]
        simp [hlt]
      · rw [if_neg hlt]
        have hne : session ≠ [] := by
          intro he
          subst he
          simp at hlt
        rcases hgl : session.getLast? with _ | lastP
        · rw [List.getLast?_eq_none_iff] at hgl
          exact absurd hgl hne
        · simp only [hgl]
          simp [hlt]
    · intro lastP hgl hge
      unfold detectContextExplosion
      rw [if_neg (not_lt.mpr hge)]
      simp only [hgl]
      by_cases h100 : 100 ≤ session.length
      · rw [if_pos h100]
        exact ⟨_, rfl, rfl, rfl, Or.inr ⟨h100, rfl, rfl⟩⟩
      · rw [if_neg h100]
        exact ⟨_, rfl, rfl, rfl, Or.inl ⟨lt_of_not_ge h100, rfl, rfl⟩⟩
  · constructor
    · decide
    · decide

/-! ## GoodPromptsEngine (services/good_prompts_engine.py) -/

/-- `POSITIVE_PATTERNS["clarity"]`. -/
def clarityPosMatchers : List (Str → Bool) :=
  [fun t => searchB [lit ("please".toList), ws1,
     litAlt (strs ["implement", "create", "build", "add", "fix", "update",
       "refactor"])] t,
   fun t => searchB [lit ("i".toList), ws1, lit ("need".toList), ws1,
     litAlt (strs ["to", "a", "an"])] t,
   fun t => searchB [lit ("can".toList), ws1, lit ("you".toList), ws1,
     litAlt (strs ["help", "assist", "implement", "create"])] t,
   fun t => searchB [lit ("要".toList), ws0,
     litAlt (strs ["实现", "创建", "添加", "修复"])] t]

/-- `POSITIVE_PATTERNS["context"]`. -/
def contextPosMatchers : List (Str → Bool) :=
  [fun t => searchB [lit ("currently".toList), ws1,
     litAlt (strs ["the", "my", "we", "i"])] t,
   fun t => searchB [lit ("the".toList), ws1,
     litAlt (strs ["current", "existing"]), ws1] t,
   fun t => containsSub ("background:".toList) t,
   fun t => containsSub ("context:".toList) t,
   fun t => containsSub ("目前".toList) t,
   fun t => containsSub ("现在".toList) t]

/-- `POSITIVE_PATTERNS["structure"]` (matched with `re.MULTILINE`). -/
def structurePosMatchers : List (Str → Bool) :=
  [fun t => lineStartB [digits1, lit (".".toList), ws1] t,
   fun t => lineStartB [lit ("-".toList), ws1] t,
   fun t => searchB [lit ("first,".toList), ws1] t ||
     searchB [lit ("first".toList), ws1] t,
   fun t => searchB [lit ("then,".toList), ws1] t ||
     searchB [lit ("then".toList), ws1] t,
   fun t => searchB [lit ("finally,".toList), ws1] t ||
     searchB [lit ("finally".toList), ws1] t,
   fun t => searchB [lit ("step".toList), ws1, digits1, lit (":".toList)] t,
   fun t => containsSub ("首先".toList) t,
   fun t => containsSub ("然后".toList) t,
   fun t => containsSub ("最后".toList) t]

/-- `POSITIVE_PATTERNS["specificity"]`. -/
def specificityPosMatchers : List (Str → Bool) :=
  [fun t => searchWB [lit ("function".toList), ws1, wchars1] t,
   fun t => searchWB [lit ("class".toList), ws1, wchars1] t,
   fun t => searchWB [lit ("file".toList), ws1, wordSlash1,
     lit (".".toList), wchars1] t,
   fun t => searchB [lit ("in".toList), ws1, lit ("the".toList), ws1,
     wchars1, ws1, litAlt (strs ["file", "folder", "directory",
       "component"])] t,
   fun t => searchB [lit ("using".toList), ws1, lit ("the".toList), ws1,
       wchars1, ws1, litAlt (strs ["library", "framework", "package"])] t ||
     searchB [lit ("using".toList), ws1, wchars1, ws1,
       litAlt (strs ["library", "framework", "package"])] t,
   fun t => searchB [lit ("在".toList), ws0, wordSlash1, ws0,
     litAlt (strs ["文件", "目录"])] t]

/-- `QUALITY_DIMENSIONS` with their pattern tables (`efficiency` has no
patterns; its regex score is overwritten by the length curve). -/
def positivePatternsOf (dim : String) : List (Str → Bool) :=
  if dim = "clarity" then clarityPosMatchers
  else if dim = "context" then contextPosMatchers
  else if dim = "structure" then structurePosMatchers
  else if dim = "specificity" then specificityPosMatchers
  else []

/-- `"doesn'"` (apostrophe spelled via its code point). -/
def doesnApos : Str := "doesn".toList ++ [Char.ofNat 39]

/-- `NEGATIVE_PATTERNS` as matchers over the lowered text. -/
def NEGATIVE_MATCHERS : List (Str → Bool) :=
  [ -- ^(help|fix|do|make)\s*$
   fun t => (strs ["help", "fix", "do", "make"]).any (fun w =>
     match lit w t with
     | some r => r.all isPyWs
     | none => false),
   -- ^(error|bug|issue|problem)\s*$
   fun t => (strs ["error", "bug", "issue", "problem"]).any (fun w =>
     match lit w t with
     | some r => r.all isPyWs
     | none => false),
   -- ^(this|it|that)\s+(is\s+)?broken
   fun t => startB [litAlt (strs ["this", "it", "that"]), ws1,
       lit ("is".toList), ws1, lit ("broken".toList)] t ||
     startB [litAlt (strs ["this", "it", "that"]), ws1,
       lit ("broken".toList)] t,
   -- doesn't?\s+work
   fun t => searchB [lit (doesnApos ++ ['t']), ws1, lit ("work".toList)] t ||
     searchB [lit doesnApos, ws1, lit ("work".toList)] t,
   -- ^(.{1,20})$
   fun t =>
     let fl := t.takeWhile (· ≠ '\n')
     let rest := t.dropWhile (· ≠ '\n')
     (1 ≤ fl.length && fl.length ≤ 20) && (rest = [] || rest = ['\n'])]

/-- `CODE_QUALITY_PATTERNS` as matchers. -/
def CODE_QUALITY_MATCHERS : List (Str → Bool) :=
  [fun t => searchB [lit ("with".toList), ws1,
     litAlt (strs ["proper", "good", "appropriate"]), ws1,
     litAlt (strs ["error", "exception"]), ws1,
     lit ("handling".toList)] t,
   fun t => searchB [lit ("include".toList), ws1, lit ("test".toList)] t,
   fun t => searchB [lit ("add".toList), ws1,
     litAlt (strs ["comment", "documentation", "docstring"])] t,
   fun t => searchB [lit ("follow".toList), ws1, wchars1, ws1,
     litAlt (strs ["convention", "style", "pattern"])] t,
   fun t => searchB [lit ("type".toList), ws0,
     litAlt (strs ["hint", "annotation"])] t]

/-- `GoodPromptsEngine._score_dimension`: match count, score
`min(100, 50 + 15·matches)` and the indicator tags `f"{dim}_{k}"`. -/
def scoreDimension (dim : String) (textLower : Str) : ℚ × List String :=
  let matchCount := (positivePatternsOf dim).countP (fun pm => pm textLower)
  (min 100 (50 + (matchCount : ℚ) * 15),
   (List.range matchCount).map (fun j => dim ++ "_" ++ toString (j + 1)))

/-- `GoodPromptsEngine._score_length`. -/
def scoreLength (text : Str) : ℚ :=
  if text.length < 30 then 20
  else if text.length < 50 then 40
  else if text.length < 100 then 60
  else if text.length < 200 then 80
  else if text.length < 500 then 100
  else if text.length < 1000 then 85
  else if text.length < 2000 then 70
  else if text.length < 5000 then 60
  else 40

/-- The result dictionary of `score_prompt` (dimension scores rounded;
`list(set(...))` outputs are modelled as first-occurrence dedup of the
accumulated lists — only membership/cardinality are consumed). -/
structure ScoreResult where
  overallScore : ℚ
  dimClarity : ℚ
  dimContext : ℚ
  dimStructure : ℚ
  dimSpecificity : ℚ
  dimEfficiency : ℚ
  qualityIndicators : List String
  reasons : List String
deriving DecidableEq

/-- `GoodPromptsEngine.score_prompt`. -/
def scorePrompt (prompt : PromptData) : ScoreResult :=
  let textLower := lowerStr prompt.text
  let sClarity := scoreDimension "clarity" textLower
  let sContext := scoreDimension "context" textLower
  let sStructure := scoreDimension "structure" textLower
  let sSpecificity := scoreDimension "specificity" textLower
  let sEfficiencyRegex := scoreDimension "efficiency" textLower
  let negativeCount := NEGATIVE_MATCHERS.countP (fun pm => pm textLower)
  let lengthScore := scoreLength prompt.text
  let cqHits := CODE_QUALITY_MATCHERS.countP (fun pm => pm textLower)
  let cqInd : List String :=
    (List.range cqHits).map (fun _ => "code_best_practice")
  let cqReasons : List String :=
    (List.range cqHits).map (fun _ => "Requests best practices")
  let thinkInd : List String :=
    if prompt.hasThinkingTrigger then ["uses_extended_thinking"] else []
  let thinkReasons : List String :=
    if prompt.hasThinkingTrigger then
      ["Uses extended thinking for complex tasks"] else []
  let cgInd : List String :=
    if prompt.categories.contains .codeGeneration &&
        100 < prompt.charCount then ["detailed_code_request"] else []
  let cgReasons : List String :=
    if prompt.categories.contains .codeGeneration &&
        100 < prompt.charCount then
      ["Detailed code generation request"] else []
  let rfInd : List String :=
    if prompt.categories.contains .refactoring then
      ["refactoring_intent"] else []
  let rfReasons : List String :=
    if prompt.categories.contains .refactoring then
      ["Shows refactoring mindset"] else []
  let qualityIndicators := sClarity.2 ++ sContext.2 ++ sStructure.2 ++
    sSpecificity.2 ++ sEfficiencyRegex.2 ++ cqInd ++ thinkInd ++ cgInd ++
    rfInd
  let weightedSum := sClarity.1 * 0.25 + sContext.1 * 0.20 +
    sStructure.1 * 0.20 + sSpecificity.1 * 0.20 + lengthScore * 0.15
  let penalty : ℚ := (negativeCount : ℚ) * 15
  let overall0 := max 0 (min 100 (weightedSum - penalty))
  let bonus := min 20 ((qualityIndicators.dedup.length : ℚ) * 3)
  let overall := min 100 (overall0 + bonus)
  let scoreReasons : List String :=
    (if 70 ≤ sClarity.1 then ["Clear and specific instructions"] else []) ++
    (if 70 ≤ sContext.1 then ["Provides good context"] else []) ++
    (if 70 ≤ sStructure.1 then ["Well-structured request"] else []) ++
    (if 70 ≤ sSpecificity.1 then ["Specific rather than vague"] else []) ++
    (if 70 ≤ lengthScore then
      ["Good length - concise yet complete"] else [])
  { overallScore := pyRound1 overall
    dimClarity := pyRound1 sClarity.1
    dimContext := pyRound1 sContext.1
    dimStructure := pyRound1 sStructure.1
    dimSpecificity := pyRound1 sSpecificity.1
    dimEfficiency := pyRound1 lengthScore
    qualityIndicators := qualityIndicators.dedup
    reasons := (cqReasons ++ thinkReasons ++ cgReasons ++ rfReasons ++
      scoreReasons).dedup }

/-- One entry of the `get_good_prompts` result list. -/
structure ScoredPromptEntry where
  prompt : PromptData
  score : ℚ
  result : ScoreResult
deriving DecidableEq

/-- The eligibility density check of `get_good_prompts`:
`len(re.findall(...)) / max(1, len(text) / 100)`. -/
def codeBlockDensity (text : Str) : ℚ :=
  ((findCodeBlocks text).length : ℚ) / max 1 ((text.length : ℚ) / 100)

/-- `GoodPromptsEngine.get_good_prompts`. -/
def getGoodPrompts (prompts : List PromptData) (minScore : ℚ)
    (limit : Nat) : List ScoredPromptEntry :=
  let scoredPrompts := prompts.foldl (fun acc prompt =>
    if prompt.text.length < 30 then acc
    else if (3 : ℚ) < codeBlockDensity prompt.text then acc
    else
      let r := scorePrompt prompt
      if minScore ≤ r.overallScore then
        acc ++ [{ prompt := prompt, score := r.overallScore, result := r }]
      else acc) []
  (List.insertionSort
    (fun a b : ScoredPromptEntry => b.score ≤ a.score) scoredPrompts).take
    limit

/-- `get_summary_stats` result (the degenerate early returns omit the
`good_percentage` key, modelled as `none`). -/
structure SummaryStats where
  totalAnalyzed : Nat
  averageScore : ℚ
  goodPromptCount : Nat
  excellentPromptCount : Nat
  goodPercentage : Option ℚ
  improvementPotential : ℚ
deriving DecidableEq

/-- The `scores` accumulation loop of `get_summary_stats`: only the length
filter is applied. -/
def summaryScores (prompts : List PromptData) : List ℚ :=
  prompts.foldl (fun acc prompt =>
    if 30 ≤ prompt.text.length then
      acc ++ [(scorePrompt prompt).overallScore]
    else acc) []

/-- `GoodPromptsEngine.get_summary_stats`. -/
def getSummaryStats (prompts : List PromptData) : SummaryStats :=
  if prompts = [] then
    { totalAnalyzed := 0, averageScore := 0, goodPromptCount := 0,
      excellentPromptCount := 0, goodPercentage := none,
      improvementPotential := 0 }
  else
    let scores := summaryScores prompts
    if scores = [] then
      { totalAnalyzed := 0, averageScore := 0, goodPromptCount := 0,
        excellentPromptCount := 0, goodPercentage := none,
        improvementPotential := 0 }
    else
      let goodCount := scores.countP (fun s => 65 ≤ s)
      let excellentCount := scores.countP (fun s => 85 ≤ s)
      let avgScore := scores.sum / scores.length
      { totalAnalyzed := scores.length
        averageScore := pyRound1 avgScore
        goodPromptCount := goodCount
        excellentPromptCount := excellentCount
        goodPercentage := some (pyRound1 ((goodCount : ℚ) / scores.length * 100))
        improvementPotential := pyRound1 (100 - avgScore) }

/-- The filtered-append fold underlying both `get_summary_stats` and
`get_good_prompts`. -/
theorem foldl_if_append {α β : Type} (f : α → β) (p : α → Prop)
    [DecidablePred p] :
    ∀ (l : List α) (acc : List β),
    l.foldl (fun acc x => if p x then acc ++ [f x] else acc) acc
      = acc ++ (l.filter (fun x => decide (p x))).map f := by
  intro l
  induction l with
  | nil => intro acc; simp
  | cons a t ih =>
    intro acc
    rw [List.foldl_cons]
    by_cases hp : p a
    · rw [if_pos hp, ih]
      simp [hp]
    · rw [if_neg hp, ih]
      simp [hp]

/-- C6 (amended): the summary statistics are computed over exactly the
prompts of length ≥ 30 — the fenced-code-density exclusion applies only to
exemplar selection. -/
theorem C6_summary_stats_set (prompts : List PromptData) :
    summaryScores prompts =
      (prompts.filter (fun p => 30 ≤ p.text.length)).map
        (fun p => (scorePrompt p).overallScore) ∧
    (getSummaryStats prompts).totalAnalyzed =
      (prompts.filter (fun p => 30 ≤ p.text.length)).length ∧
    (getSummaryStats prompts).goodPromptCount =
      ((prompts.filter (fun p => 30 ≤ p.text.length)).map
        (fun p => (scorePrompt p).overallScore)).countP
          (fun s => 65 ≤ s) ∧
    (getSummaryStats prompts).excellentPromptCount =
      ((prompts.filter (fun p => 30 ≤ p.text.length)).map
        (fun p => (scorePrompt p).overallScore)).countP
          (fun s => 85 ≤ s) ∧
    ((prompts.filter (fun p => 30 ≤ p.text.length)) ≠ [] →
      (getSummaryStats prompts).averageScore =
        pyRound1 ((((prompts.filter (fun p => 30 ≤ p.text.length)).map
          (fun p => (scorePrompt p).overallScore)).sum) /
          ((prompts.filter (fun p => 30 ≤ p.text.length)).length : ℚ)) ∧
      (getSummaryStats prompts).improvementPotential =
        pyRound1 (100 - (((prompts.filter (fun p => 30 ≤ p.text.length)).map
          (fun p => (scorePrompt p).overallScore)).sum) /
          ((prompts.filter (fun p => 30 ≤ p.text.length)).length : ℚ))) := by
  have hs : summaryScores prompts =
      (prompts.filter (fun p => 30 ≤ p.text.length)).map
        (fun p => (scorePrompt p).overallScore) := by
    unfold summaryScores
    rw [foldl_if_append (fun p => (scorePrompt p).overallScore)
      (fun p => 30 ≤ p.text.length)]
    simp
  refine ⟨hs, ?_⟩
  unfold getSummaryStats
  by_cases hpe : prompts = []
  · rw [if_pos hpe]
    subst hpe
    simp
  · rw [if_neg hpe]
    dsimp only
    by_cases hse : summaryScores prompts = []
    · rw [if_pos hse]
      rw [hs] at hse
      have hfe : prompts.filter (fun p => 30 ≤ p.text.length) = [] :=
        List.map_eq_nil_iff.mp hse
      rw [hfe]
      simp
    · rw [if_neg hse]
      rw [hs] at hse ⊢
      have hlen : ((prompts.filter (fun p => 30 ≤ p.text.length)).map
          (fun p => (scorePrompt p).overallScore)).length
          = (prompts.filter (fun p => 30 ≤ p.text.length)).length :=
        List.length_map _ _
      refine ⟨by simp, rfl, rfl, fun _ => ⟨?_, ?_⟩⟩
      · rw [hlen]
      · rw [hlen]

/-- The C6 counterexample prompt: 31 characters, four fenced blocks. -/
def c6prompt : PromptData :=
  { text := List.replicate 24 '`' ++ (" hello12".toList)
    timestamp := 0
    project := "p"
    charCount := 32 }

section
attribute [local semireducible] Rat.add Rat.mul Rat.sub Rat.inv
  Rat.ofScientific

/-- C6 counterexample: a prompt of length ≥ 30 whose fenced-code density
exceeds 3 blocks per 100 characters is excluded from exemplar selection
(even with threshold 0) yet still counted by the summary statistics — the
two are not computed over the same eligibility-filtered set. -/
theorem C6_counterexample_stats_filter :
    30 ≤ c6prompt.text.length ∧
    (3 : ℚ) < codeBlockDensity c6prompt.text ∧
    getGoodPrompts [c6prompt] 0 50 = [] ∧
    (getSummaryStats [c6prompt]).totalAnalyzed = 1 := by
  refine ⟨by decide, by decide, by decide, by decide⟩

/-- C6 witness for the amended statement, at a concrete one-prompt list
satisfying the non-emptiness hypothesis. -/
theorem C6_summary_stats_set_witness :
    (([c6prompt] : List PromptData).filter
      (fun p => 30 ≤ p.text.length) ≠ []) ∧
    ((getSummaryStats [c6prompt]).averageScore =
        pyRound1 ((((([c6prompt] : List PromptData).filter
          (fun p => 30 ≤ p.text.length)).map
          (fun p => (scorePrompt p).overallScore)).sum) /
          ((([c6prompt] : List PromptData).filter
            (fun p => 30 ≤ p.text.length)).length : ℚ)) ∧
      (getSummaryStats [c6prompt]).improvementPotential =
        pyRound1 (100 - ((((([c6prompt] : List PromptData).filter
          (fun p => 30 ≤ p.text.length)).map
          (fun p => (scorePrompt p).overallScore)).sum) /
          ((([c6prompt] : List PromptData).filter
            (fun p => 30 ≤ p.text.length)).length : ℚ)))) :=
  ⟨by decide, (C6_summary_stats_set [c6prompt]).2.2.2.2 (by decide)⟩

end

/-! ## Project-name decoding (`DataReader._decode_project_name`) -/

/-- `prefixes_to_remove`. -/
def PREFIXES_TO_REMOVE : List Str :=
  strs ["Users", "Volumes", "geniusc", "Desktop", "Downloads", "Documents"]

/-- `^[A-Z]{4}\d{4}$` (`re.match` with both anchors in the pattern). -/
def isCourseCode (s : Str) : Bool :=
  match s with
  | [a, b, c, d, e, f, g, k] =>
    a.isUpper && b.isUpper && c.isUpper && d.isUpper &&
      e.isDigit && f.isDigit && g.isDigit && k.isDigit
  | _ => false

/-- `^\d{2,4}T\d$`. -/
def isSemesterCode (s : Str) : Bool :=
  match s.reverse with
  | d :: 'T' :: rest =>
    d.isDigit && rest.all Char.isDigit &&
      2 ≤ rest.length && rest.length ≤ 4
  | _ => false

/-- Unanchored `re.search(r"[A-Z]{4}\d{4}", s)`. -/
def containsCourseSub (s : Str) : Bool :=
  anySuffix (fun t =>
    match t with
    | a :: b :: c :: d :: e :: f :: g :: k :: _ =>
      a.isUpper && b.isUpper && c.isUpper && d.isUpper &&
        e.isDigit && f.isDigit && g.isDigit && k.isDigit
    | _ => false) s

/-- Python `str.title()` (ASCII letters). -/
def pyTitleGo : Bool → Str → Str
  | _, [] => []
  | prevAlpha, c :: rest =>
    if c.isAlpha then
      (if prevAlpha then c.toLower else c.toUpper) :: pyTitleGo true rest
    else c :: pyTitleGo false rest

def pyTitle (s : Str) : Str := pyTitleGo false s

/-- Python `str.islower()` (ASCII cased characters). -/
def pyIsLower (s : Str) : Bool :=
  s.any Char.isAlpha && s.all (fun c => !c.isAlpha || c.isLower)

/-- The acronym list upper-cased verbatim. -/
def ACRONYMS : List Str := strs ["api", "ui", "ai", "ml", "db", "mcp", "n8n"]

/-- The per-token branch of the decoder loop (`"Academic"` is skipped). -/
def resultToken (part : Str) : Option Str :=
  if isCourseCode part then some part
  else if isSemesterCode part then some part
  else if part = "Academic".toList then none
  else if ACRONYMS.contains (lowerStr part) then some (upperStr part)
  else if lowerStr part = "homelab".toList then some ("HomeLab".toList)
  else if pyIsLower part then some (pyTitle part)
  else some part

/-- `str.replace("  ", " ")` (single left-to-right pass, non-overlapping). -/
def replaceDoubleSpace : Str → Str
  | [] => []
  | [c] => [c]
  | c1 :: c2 :: rest =>
    if c1 = ' ' && c2 = ' ' then ' ' :: replaceDoubleSpace rest
    else c1 :: replaceDoubleSpace (c2 :: rest)

/-- `DataReader._decode_project_name` (the never-assigned `skip_next` flag
of the filtering loop is dead code and not modelled). -/
def decodeProjectName (encoded : Str) : Str :=
  let name := encoded.dropWhile (· = '-')
  let parts := name.splitOn '-'
  let filteredParts := parts.filter
    (fun part => !(PREFIXES_TO_REMOVE.contains part))
  if filteredParts = [] then "Home".toList
  else
    let resultParts := filteredParts.filterMap resultToken
    let projectName0 := List.intercalate (" ".toList) resultParts
    let projectName1 := pyStrip (replaceDoubleSpace projectName0)
    let projectName2 :=
      if startsWith ("Project ".toList) projectName1 &&
          8 < projectName1.length then
        projectName1.drop 8
      else projectName1
    let projectName3 :=
      if endsWith (" Output".toList) projectName2 then
        projectName2.take (projectName2.length - 7)
      else projectName2
    let projectName4 :=
      if projectName3 = "Project".toList then "General Projects".toList
      else projectName3
    let projectName5 :=
      if startsWith ("HomeLab ".toList) projectName4 &&
          containsCourseSub projectName4 then
        projectName4.drop 8
      else projectName4
    let projectName6 :=
      if projectName5 = "HomeLab Project".toList then "HomeLab".toList
      else projectName5
    if projectName6 = [] then "Unknown".toList else projectName6

theorem isCourseCode_parts {s : Str} (h : isCourseCode s = true) :
    ∃ a b c d e f g k, s = [a, b, c, d, e, f, g, k] ∧
      a.isUpper = true ∧ b.isUpper = true ∧ c.isUpper = true ∧
      d.isUpper = true ∧ e.isDigit = true ∧ f.isDigit = true ∧
      g.isDigit = true ∧ k.isDigit = true := by
  unfold isCourseCode at h
  split at h
  · next a b c d e f g k =>
    simp only [Bool.and_eq_true] at h
    exact ⟨a, b, c, d, e, f, g, k, rfl, h.1.1.1.1.1.1.1, h.1.1.1.1.1.1.2,
      h.1.1.1.1.1.2, h.1.1.1.1.2, h.1.1.1.2, h.1.1.2, h.1.2, h.2⟩
  · exact absurd h (by simp)

theorem isSemesterCode_parts {s : Str} (h : isSemesterCode s = true) :
    ∃ d rest, s.reverse = d :: 'T' :: rest ∧ d.isDigit = true ∧
      rest.all Char.isDigit = true ∧ 2 ≤ rest.length ∧ rest.length ≤ 4 := by
  unfold isSemesterCode at h
  split at h
  · next d rest heq =>
    simp only [Bool.and_eq_true, decide_eq_true_eq] at h
    exact ⟨d, rest, heq, h.1.1.1, h.1.1.2, h.1.2, h.2⟩
  · exact absurd h (by simp)

theorem char_ne_of_upper {x y : Char} (hx : x.isUpper = true)
    (hy : y.isUpper = false) : x ≠ y := by
  intro heq
  rw [heq, hy] at hx
  exact Bool.false_ne_true hx

theorem char_ne_of_digit {x y : Char} (hx : x.isDigit = true)
    (hy : y.isDigit = false) : x ≠ y := by
  intro heq
  rw [heq, hy] at hx
  exact Bool.false_ne_true hx

theorem not_pyWs_of_upper {x : Char} (h : x.isUpper = true) :
    isPyWs x = false := by
  by_contra hcon
  rw [Bool.not_eq_false] at hcon
  simp only [isPyWs, Bool.or_eq_true, decide_eq_true_eq] at hcon
  rcases hcon with ((((h1 | h1) | h1) | h1) | h1) | h1 <;>
    (subst h1; exact absurd h (by decide))

theorem not_pyWs_of_digit {x : Char} (h : x.isDigit = true) :
    isPyWs x = false := by
  by_contra hcon
  rw [Bool.not_eq_false] at hcon
  simp only [isPyWs, Bool.or_eq_true, decide_eq_true_eq] at hcon
  rcases hcon with ((((h1 | h1) | h1) | h1) | h1) | h1 <;>
    (subst h1; exact absurd h (by decide))

theorem replaceDS_nospace {s : Str} (h : ∀ x ∈ s, x ≠ ' ') :
    replaceDoubleSpace s = s := by
  induction s with
  | nil => rfl
  | cons c rest ih =>
    cases rest with
    | nil => rfl
    | cons c2 rest2 =>
      rw [replaceDoubleSpace]
      rw [if_neg (by
        simp only [Bool.and_eq_true, decide_eq_true_eq, not_and]
        intro hcsp
        exact absurd hcsp (h c (List.mem_cons_self _ _)))]
      rw [ih (fun x hx => h x (List.mem_cons_of_mem c hx))]

theorem replaceDS_append_single {u v : Str} (hu : ∀ x ∈ u, x ≠ ' ')
    (hv : ∀ x ∈ v, x ≠ ' ') :
    replaceDoubleSpace (u ++ ' ' :: v) = u ++ ' ' :: v := by
  induction u with
  | nil =>
    cases v with
    | nil => rfl
    | cons c2 v2 =>
      rw [List.nil_append, replaceDoubleSpace]
      rw [if_neg (by
        simp only [Bool.and_eq_true, decide_eq_true_eq, not_and]
        intro _
        exact hv c2 (List.mem_cons_self _ _))]
      rw [replaceDS_nospace hv]
  | cons c u' ih =>
    have hcne : c ≠ ' ' := hu c (List.mem_cons_self _ _)
    have hu' : ∀ x ∈ u', x ≠ ' ' := fun x hx => hu x (List.mem_cons_of_mem c hx)
    cases u' with
    | nil =>
      rw [List.cons_append, List.nil_append, replaceDoubleSpace]
      rw [if_neg (by
        simp only [Bool.and_eq_true, decide_eq_true_eq, not_and]
        intro hcsp
        exact absurd hcsp hcne)]
      have := ih (fun x hx => absurd hx (List.not_mem_nil x))
      rw [List.nil_append] at this
      rw [this]
    | cons c2 u'' =>
      rw [List.cons_append, List.cons_append, replaceDoubleSpace]
      rw [if_neg (by
        simp only [Bool.and_eq_true, decide_eq_true_eq, not_and]
        intro hcsp
        exact absurd hcsp hcne)]
      rw [show (c2 :: u'') ++ ' ' :: v = (c2 :: u'') ++ ' ' :: v from rfl] at ih
      rw [← List.cons_append]
      rw [ih hu']

theorem isPrefixOf_cons1_ne {p x : Char} (ws ss : Str) (h : p ≠ x) :
    List.isPrefixOf (p :: ws) (x :: ss) = false := by
  show (p == x && List.isPrefixOf ws ss) = false
  rw [show (p == x) = false from beq_eq_false_iff_ne.mpr h]
  simp

theorem isPrefixOf_cons2_ne {q y : Char} (p x : Char) (ws ss : Str)
    (h : q ≠ y) :
    List.isPrefixOf (p :: q :: ws) (x :: y :: ss) = false := by
  show (p == x && (q == y && List.isPrefixOf ws ss)) = false
  rw [show (q == y) = false from beq_eq_false_iff_ne.mpr h]
  simp

/-- C8: an encoded directory name whose dash tokens are stoplist entries
around a course-code token immediately followed by a semester-code token
decodes to `"<COURSE> <SEMESTER>"` verbatim, uppercase preserved. -/
theorem C8_course_semester_decode (encoded : Str) (pre post : List Str)
    (course sem : Str)
    (hsplit : (encoded.dropWhile (· = '-')).splitOn '-'
      = pre ++ course :: sem :: post)
    (hpre : ∀ t ∈ pre, t ∈ PREFIXES_TO_REMOVE)
    (hpost : ∀ t ∈ post, t ∈ PREFIXES_TO_REMOVE)
    (hc : isCourseCode course = true)
    (hs : isSemesterCode sem = true) :
    decodeProjectName encoded = course ++ ' ' :: sem := by
  obtain ⟨a, b, c, d, e, f, g, k, hcs, ha, hb, hc3, hd, he, hf, hg, hk⟩ :=
    isCourseCode_parts hc
  obtain ⟨dg, rest, hrev, hdg, hrestdig, hrl2, hrl4⟩ :=
    isSemesterCode_parts hs
  have hsem : sem = rest.reverse ++ ['T', dg] := by
    have h1 := congrArg List.reverse hrev
    rw [List.reverse_reverse] at h1
    rw [h1]
    simp
  have hsemlen : sem.length = rest.length + 2 := by rw [hsem]; simp
  have hcourselen : course.length = 8 := by rw [hcs]; rfl
  -- the stoplist contains neither pattern-shaped token
  have hstopCourse : PREFIXES_TO_REMOVE.contains course = false := by
    have hall : ∀ t ∈ PREFIXES_TO_REMOVE, isCourseCode t = false := by decide
    by_contra hcon
    rw [Bool.not_eq_false] at hcon
    have hmem : course ∈ PREFIXES_TO_REMOVE := by simpa using hcon
    rw [hall course hmem] at hc
    exact Bool.false_ne_true hc
  have hstopSem : PREFIXES_TO_REMOVE.contains sem = false := by
    have hall : ∀ t ∈ PREFIXES_TO_REMOVE, isSemesterCode t = false := by
      decide
    by_contra hcon
    rw [Bool.not_eq_false] at hcon
    have hmem : sem ∈ PREFIXES_TO_REMOVE := by simpa using hcon
    rw [hall sem hmem] at hs
    exact Bool.false_ne_true hs
  -- the filtering loop keeps exactly [course, sem]
  have hfilter : ((encoded.dropWhile (· = '-')).splitOn '-').filter
      (fun part => !(PREFIXES_TO_REMOVE.contains part)) = [course, sem] := by
    rw [hsplit, List.filter_append]
    have h1 : pre.filter (fun part => !(PREFIXES_TO_REMOVE.contains part))
        = [] := by
      rw [List.filter_eq_nil_iff]
      intro t ht
      have hmem := hpre t ht
      simp [hmem]
    have h2 : post.filter (fun part => !(PREFIXES_TO_REMOVE.contains part))
        = [] := by
      rw [List.filter_eq_nil_iff]
      intro t ht
      have hmem := hpost t ht
      simp [hmem]
    rw [h1, List.filter_cons_of_pos (by simpa using hstopCourse),
      List.filter_cons_of_pos (by simpa using hstopSem), h2]
    rfl
  -- token mapping keeps both tokens verbatim
  have hcsem : isCourseCode sem = false := by
    cases hbo : isCourseCode sem with
    | false => rfl
    | true =>
      obtain ⟨a', b', c', d', e', f', g', k', hshape, -⟩ :=
        isCourseCode_parts hbo
      have : sem.length = 8 := by rw [hshape]; rfl
      omega
  have hrt1 : resultToken course = some course := by
    unfold resultToken
    rw [if_pos hc]
  have hrt2 : resultToken sem = some sem := by
    unfold resultToken
    rw [if_neg (by simp [hcsem]), if_pos hs]
  have hfm : ([course, sem] : List Str).filterMap resultToken
      = [course, sem] := by
    simp [List.filterMap_cons, hrt1, hrt2]
  have hic : List.intercalate (" ".toList) [course, sem]
      = course ++ ' ' :: sem := by
    simp [List.intercalate, List.intersperse]
  -- character facts
  have hcourseNoSpace : ∀ x ∈ course, x ≠ ' ' := by
    rw [hcs]
    intro x hx
    simp only [List.mem_cons, List.not_mem_nil, or_false] at hx
    rcases hx with rfl | rfl | rfl | rfl | rfl | rfl | rfl | rfl
    · exact char_ne_of_upper ha (by decide)
    · exact char_ne_of_upper hb (by decide)
    · exact char_ne_of_upper hc3 (by decide)
    · exact char_ne_of_upper hd (by decide)
    · exact char_ne_of_digit he (by decide)
    · exact char_ne_of_digit hf (by decide)
    · exact char_ne_of_digit hg (by decide)
    · exact char_ne_of_digit hk (by decide)
  have hsemNoSpace : ∀ x ∈ sem, x ≠ ' ' := by
    rw [hsem]
    intro x hx
    rw [List.mem_append] at hx
    rcases hx with hx | hx
    · rw [List.mem_reverse] at hx
      have := List.all_eq_true.mp hrestdig x hx
      exact char_ne_of_digit (by simpa using this) (by decide)
    · simp only [List.mem_cons, List.not_mem_nil, or_false] at hx
      rcases hx with rfl | rfl
      · decide
      · exact char_ne_of_digit hdg (by decide)
  have hds : replaceDoubleSpace (course ++ ' ' :: sem) = course ++ ' ' :: sem :=
    replaceDS_append_single hcourseNoSpace hsemNoSpace
  -- strip is the identity: the ends are an uppercase letter and a digit
  have hlstrip : pyLStrip (course ++ ' ' :: sem) = course ++ ' ' :: sem := by
    unfold pyLStrip
    rw [hcs, List.cons_append, List.dropWhile_cons,
      if_neg (by rw [not_pyWs_of_upper ha]; exact Bool.false_ne_true)]
  have hrevs : (course ++ ' ' :: sem).reverse
      = dg :: 'T' :: (rest ++ ' ' :: course.reverse) := by
    rw [List.reverse_append, List.reverse_cons, hrev]
    simp
  have hstrip : pyStrip (course ++ ' ' :: sem) = course ++ ' ' :: sem := by
    unfold pyStrip
    rw [hlstrip]
    unfold pyRStrip
    rw [hrevs, List.dropWhile_cons,
      if_neg (by rw [not_pyWs_of_digit hdg]; exact Bool.false_ne_true),
      ← hrevs, List.reverse_reverse]
  -- every cleanup branch is skipped
  have hsw1 : startsWith ("Project ".toList) (course ++ ' ' :: sem)
      = false := by
    rw [hcs]
    show List.isPrefixOf ('P' :: 'r' :: "oject ".toList)
      (a :: b :: ([c, d, e, f, g, k] ++ ' ' :: sem)) = false
    exact isPrefixOf_cons2_ne _ _ _ _ ((char_ne_of_upper hb (by decide)).symm)
  have hswHL : startsWith ("HomeLab ".toList) (course ++ ' ' :: sem)
      = false := by
    rw [hcs]
    show List.isPrefixOf ('H' :: 'o' :: "meLab ".toList)
      (a :: b :: ([c, d, e, f, g, k] ++ ' ' :: sem)) = false
    exact isPrefixOf_cons2_ne _ _ _ _ ((char_ne_of_upper hb (by decide)).symm)
  have hew : endsWith (" Output".toList) (course ++ ' ' :: sem) = false := by
    unfold endsWith
    rw [hrevs]
    show List.isPrefixOf ('t' :: "uptuO ".toList)
      (dg :: 'T' :: (rest ++ ' ' :: course.reverse)) = false
    exact isPrefixOf_cons1_ne _ _ ((char_ne_of_digit hdg (by decide)).symm)
  have hlen0 : (course ++ ' ' :: sem).length = rest.length + 11 := by
    rw [List.length_append, List.length_cons, hcourselen, hsemlen]
    omega
  have hne7 : course ++ ' ' :: sem ≠ "Project".toList := by
    intro heq
    have h2 := congrArg List.length heq
    rw [hlen0] at h2
    have h7 : ("Project".toList).length = 7 := rfl
    rw [h7] at h2
    omega
  have hneHP : course ++ ' ' :: sem ≠ "HomeLab Project".toList := by
    rw [hcs]
    intro heq
    have hHP : ("HomeLab Project".toList)
        = 'H' :: 'o' :: "meLab Project".toList := rfl
    rw [hHP] at heq
    injection heq with h1 heq2
    injection heq2 with h2 heq3
    exact absurd h2 (char_ne_of_upper hb (by decide))
  have hne0 : ([course, sem] : List Str) ≠ [] := by simp
  have hneNil : course ++ ' ' :: sem ≠ [] := by
    rw [hcs]
    simp
  -- assemble
  unfold decodeProjectName
  dsimp only
  rw [hfilter]
  rw [if_neg hne0]
  rw [hfm]
  rw [hic]
  rw [hds]
  rw [hstrip]
  have e2 : (if (startsWith ("Project ".toList) (course ++ ' ' :: sem) &&
        decide (8 < List.length (course ++ ' ' :: sem))) = true then
        List.drop 8 (course ++ ' ' :: sem)
      else course ++ ' ' :: sem) = course ++ ' ' :: sem := by
    apply if_neg
    rw [hsw1]
    simp
  rw [e2]
  have e3 : (if endsWith (" Output".toList) (course ++ ' ' :: sem) = true then
        List.take ((course ++ ' ' :: sem).length - 7) (course ++ ' ' :: sem)
      else course ++ ' ' :: sem) = course ++ ' ' :: sem := by
    apply if_neg
    rw [hew]
    exact Bool.false_ne_true
  rw [e3]
  have e4 : (if (course ++ ' ' :: sem) = "Project".toList then
        ("General Projects".toList)
      else course ++ ' ' :: sem) = course ++ ' ' :: sem := if_neg hne7
  rw [e4]
  have e5 : (if (startsWith ("HomeLab ".toList) (course ++ ' ' :: sem) &&
        containsCourseSub (course ++ ' ' :: sem)) = true then
        List.drop 8 (course ++ ' ' :: sem)
      else course ++ ' ' :: sem) = course ++ ' ' :: sem := by
    apply if_neg
    rw [hswHL]
    simp
  rw [e5]
  have e6 : (if (course ++ ' ' :: sem) = "HomeLab Project".toList then
        ("HomeLab".toList)
      else course ++ ' ' :: sem) = course ++ ' ' :: sem := if_neg hneHP
  rw [e6, if_neg hneNil]

theorem C8_course_semester_decode_witness :
    decodeProjectName ("-Users-geniusc-Desktop-COMP2521-25T3".toList)
      = "COMP2521".toList ++ ' ' :: "25T3".toList :=
  C8_course_semester_decode ("-Users-geniusc-Desktop-COMP2521-25T3".toList)
    (strs ["Users", "geniusc", "Desktop"]) [] ("COMP2521".toList)
    ("25T3".toList) (by decide) (by decide) (by decide) (by decide) (by decide)

/-! ## Timestamp shape coverage (`DataReader._parse_timestamp`)

Renderers produce an arbitrary timestamp string of each accepted
ISO-8601 shape, to quantify over those shapes. -/

/-- Decimal digit character. -/
def digitChar (n : Nat) : Char := Char.ofNat (48 + n)

/-- Two-digit zero-padded rendering. -/
def pad2 (n : Nat) : Str := [digitChar (n / 10 % 10), digitChar (n % 10)]

/-- Four-digit zero-padded rendering. -/
def pad4 (n : Nat) : Str :=
  [digitChar (n / 1000 % 10), digitChar (n / 100 % 10),
    digitChar (n / 10 % 10), digitChar (n % 10)]

/-- `YYYY-MM-DDTHH:MM:SS` (no offset). -/
def renderNaiveTs (y mo d h mi sec : Nat) : Str :=
  pad4 y ++ '-' :: pad2 mo ++ '-' :: pad2 d ++ 'T' ::
    pad2 h ++ ':' :: pad2 mi ++ ':' :: pad2 sec

/-- The same instant with a trailing literal `Z`. -/
def renderZTs (y mo d h mi sec : Nat) : Str :=
  renderNaiveTs y mo d h mi sec ++ ['Z']

/-- The same wall clock with an explicit `+HH:MM` offset. -/
def renderOffsetTs (y mo d h mi sec oh om : Nat) : Str :=
  renderNaiveTs y mo d h mi sec ++ '+' :: pad2 oh ++ ':' :: pad2 om

theorem digitChar_isDigit {n : Nat} (h : n < 10) :
    (digitChar n).isDigit = true := by
  unfold digitChar
  interval_cases n <;> decide

theorem digitVal_digitChar {n : Nat} (h : n < 10) :
    digitVal (digitChar n) = n := by
  unfold digitChar digitVal
  interval_cases n <;> decide

theorem parseNDigitsAux_cons (acc n : Nat) {c : Char}
    (hc : c.isDigit = true) (r : Str) :
    parseNDigitsAux acc (n + 1) (c :: r)
      = parseNDigitsAux (acc * 10 + digitVal c) n r := by
  show (if c.isDigit = true then
      parseNDigitsAux (acc * 10 + digitVal c) n r else none)
    = parseNDigitsAux (acc * 10 + digitVal c) n r
  rw [if_pos hc]

theorem parseNDigits_pad2 (n : Nat) (hn : n < 100) (r : Str) :
    parseNDigits 2 (pad2 n ++ r) = some (n, r) := by
  unfold parseNDigits pad2
  rw [List.cons_append, List.cons_append, List.nil_append,
    parseNDigitsAux_cons _ _ (digitChar_isDigit (by omega)) _,
    parseNDigitsAux_cons _ _ (digitChar_isDigit (by omega)) _,
    digitVal_digitChar (by omega), digitVal_digitChar (by omega)]
  unfold parseNDigitsAux
  have hacc : (0 * 10 + n / 10 % 10) * 10 + n % 10 = n := by omega
  rw [hacc]

theorem parseNDigits_pad4 (n : Nat) (hn : n < 10000) (r : Str) :
    parseNDigits 4 (pad4 n ++ r) = some (n, r) := by
  unfold parseNDigits pad4
  rw [List.cons_append, List.cons_append, List.cons_append,
    List.cons_append, List.nil_append,
    parseNDigitsAux_cons _ _ (digitChar_isDigit (by omega)) _,
    parseNDigitsAux_cons _ _ (digitChar_isDigit (by omega)) _,
    parseNDigitsAux_cons _ _ (digitChar_isDigit (by omega)) _,
    parseNDigitsAux_cons _ _ (digitChar_isDigit (by omega)) _,
    digitVal_digitChar (by omega), digitVal_digitChar (by omega),
    digitVal_digitChar (by omega), digitVal_digitChar (by omega)]
  unfold parseNDigitsAux
  have hacc : (((0 * 10 + n / 1000 % 10) * 10 + n / 100 % 10) * 10
      + n / 10 % 10) * 10 + n % 10 = n := by omega
  rw [hacc]

theorem parseNDigits_pad2_nil (n : Nat) (hn : n < 100) :
    parseNDigits 2 (pad2 n) = some (n, []) := by
  have h := parseNDigits_pad2 n hn []
  rwa [List.append_nil] at h

theorem parseTimePart_pads (h mi sec : Nat) (tail : Str)
    (hh : h < 100) (hmi : mi < 100) (hsec : sec < 100)
    (htail : tail = [] ∨ ∃ t, tail = '+' :: t) :
    parseTimePart (pad2 h ++ ':' :: (pad2 mi ++ ':' :: (pad2 sec ++ tail)))
      = some (h, mi, sec, 0, tail) := by
  simp only [parseTimePart, parseNDigits_pad2 h hh,
    parseNDigits_pad2 mi hmi, parseNDigits_pad2 sec hsec]
  rcases htail with rfl | ⟨t, rfl⟩
  · rfl
  · rfl

theorem parseOffsetSuffix_pads (oh om : Nat) (hoh : oh ≤ 23)
    (hom : om ≤ 59) :
    parseOffsetSuffix ('+' :: (pad2 oh ++ ':' :: pad2 om))
      = some (some ((3600 * oh + 60 * om : Nat) : Int)) := by
  simp only [parseOffsetSuffix, parseOffsetHMS,
    parseNDigits_pad2 oh (by omega), parseNDigits_pad2_nil om (by omega)]
  rw [if_pos (by simp [hoh, hom])]
  rfl

theorem mem_pad2_isDigit {c : Char} {n : Nat} (h : c ∈ pad2 n) :
    c.isDigit = true := by
  simp only [pad2, List.mem_cons, List.not_mem_nil, or_false] at h
  rcases h with rfl | rfl
  · exact digitChar_isDigit (by omega)
  · exact digitChar_isDigit (by omega)

theorem mem_pad4_isDigit {c : Char} {n : Nat} (h : c ∈ pad4 n) :
    c.isDigit = true := by
  simp only [pad4, List.mem_cons, List.not_mem_nil, or_false] at h
  rcases h with rfl | rfl | rfl | rfl
  · exact digitChar_isDigit (by omega)
  · exact digitChar_isDigit (by omega)
  · exact digitChar_isDigit (by omega)
  · exact digitChar_isDigit (by omega)

theorem replaceZ_of_no_Z {s : Str} (h : ∀ c ∈ s, c ≠ 'Z') :
    replaceZ s = s := by
  induction s with
  | nil => rfl
  | cons c r ih =>
    show (if c = 'Z' then "+00:00".toList else [c]) ++ replaceZ r = c :: r
    rw [if_neg (h c (List.mem_cons_self _ _)),
      ih (fun x hx => h x (List.mem_cons_of_mem c hx))]
    rfl

theorem renderNaive_no_Z (y mo d h mi sec : Nat) :
    ∀ c ∈ renderNaiveTs y mo d h mi sec, c ≠ 'Z' := by
  intro c hc
  simp only [renderNaiveTs, List.mem_append, List.mem_cons] at hc
  rcases hc with ((((hc | rfl | hc) | rfl | hc) | rfl | hc) | rfl | hc)
    | rfl | hc
  · exact char_ne_of_digit (mem_pad4_isDigit hc) (by decide)
  · decide
  · exact char_ne_of_digit (mem_pad2_isDigit hc) (by decide)
  · decide
  · exact char_ne_of_digit (mem_pad2_isDigit hc) (by decide)
  · decide
  · exact char_ne_of_digit (mem_pad2_isDigit hc) (by decide)
  · decide
  · exact char_ne_of_digit (mem_pad2_isDigit hc) (by decide)
  · decide
  · exact char_ne_of_digit (mem_pad2_isDigit hc) (by decide)

theorem endsWith_last_ne {u : Str} {c w : Char} (h : w ≠ c) :
    endsWith [w] (u ++ [c]) = false := by
  unfold endsWith
  rw [List.reverse_append]
  show List.isPrefixOf [w] (c :: u.reverse) = false
  show (w == c && List.isPrefixOf [] u.reverse) = false
  rw [show (w == c) = false from beq_eq_false_iff_ne.mpr h]
  simp

theorem endsWith_last_eq (u : Str) (c : Char) :
    endsWith [c] (u ++ [c]) = true := by
  unfold endsWith
  rw [List.reverse_append]
  show (c == c && List.isPrefixOf [] u.reverse) = true
  simp [List.isPrefixOf]

theorem renderNaive_concat (y mo d h mi sec : Nat) :
    renderNaiveTs y mo d h mi sec
      = (pad4 y ++ '-' :: pad2 mo ++ '-' :: pad2 d ++ 'T' ::
          pad2 h ++ ':' :: pad2 mi ++ ':' :: [digitChar (sec / 10 % 10)])
        ++ [digitChar (sec % 10)] := by
  simp [renderNaiveTs, pad2]

theorem daysInMonth_le (y m : Nat) : daysInMonth y m ≤ 31 := by
  unfold daysInMonth
  split_ifs <;> omega

theorem fromIsoformat_render (y mo d h mi sec : Nat) (tail : Str)
    (off : Option Int)
    (hy1 : 1 ≤ y) (hy2 : y ≤ 9999) (hmo1 : 1 ≤ mo) (hmo2 : mo ≤ 12)
    (hd1 : 1 ≤ d) (hd2 : d ≤ daysInMonth y mo)
    (hh : h ≤ 23) (hmi : mi ≤ 59) (hsec : sec ≤ 59)
    (htail : parseOffsetSuffix tail = some off)
    (htail2 : tail = [] ∨ ∃ t, tail = '+' :: t) :
    fromIsoformat (renderNaiveTs y mo d h mi sec ++ tail)
      = some ⟨y, mo, d, h, mi, sec, 0, off⟩ := by
  have hrw : renderNaiveTs y mo d h mi sec ++ tail
      = pad4 y ++ '-' :: (pad2 mo ++ '-' :: (pad2 d ++ 'T' ::
        (pad2 h ++ ':' :: (pad2 mi ++ ':' :: (pad2 sec ++ tail))))) := by
    simp [renderNaiveTs]
  rw [hrw]
  simp only [fromIsoformat, parseNDigits_pad4 y (by omega),
    parseNDigits_pad2 mo (by omega),
    parseNDigits_pad2 d (by have := daysInMonth_le y mo; omega),
    parseTimePart_pads h mi sec tail (by omega) (by omega) (by omega) htail2,
    htail]
  rw [if_pos (by simp [hy1, hmo1, hmo2, hd1, hd2]),
    if_pos (by simp [hh, hmi, hsec])]

theorem parseTimestamp_str (s : Str) :
    parseTimestamp (.str s)
      = (let s1 := if endsWith ['Z'] s = true
          then s.dropLast ++ "+00:00".toList else s
        match fromIsoformat (replaceZ s1) with
        | some dt => some (dtInstant dt)
        | none =>
          match fromIsoformat
              ((s1.takeWhile (· ≠ '+')).takeWhile (· ≠ 'Z')) with
          | some dt => some (fieldsEpoch dt)
          | none => none) := rfl

theorem parseTimestamp_renderNaive (y mo d h mi sec : Nat)
    (hy1 : 1 ≤ y) (hy2 : y ≤ 9999) (hmo1 : 1 ≤ mo) (hmo2 : mo ≤ 12)
    (hd1 : 1 ≤ d) (hd2 : d ≤ daysInMonth y mo)
    (hh : h ≤ 23) (hmi : mi ≤ 59) (hsec : sec ≤ 59) :
    parseTimestamp (.str (renderNaiveTs y mo d h mi sec))
      = some (fieldsEpoch ⟨y, mo, d, h, mi, sec, 0, none⟩) := by
  have hends : endsWith ['Z'] (renderNaiveTs y mo d h mi sec) = false := by
    rw [renderNaive_concat]
    exact endsWith_last_ne
      ((char_ne_of_digit (digitChar_isDigit (by omega)) (by decide)).symm)
  have hiso : fromIsoformat (renderNaiveTs y mo d h mi sec)
      = some ⟨y, mo, d, h, mi, sec, 0, none⟩ := by
    have h0 := fromIsoformat_render y mo d h mi sec [] none hy1 hy2 hmo1
      hmo2 hd1 hd2 hh hmi hsec (by rfl) (Or.inl rfl)
    rwa [List.append_nil] at h0
  show (let s1 := if endsWith ['Z'] (renderNaiveTs y mo d h mi sec) = true
      then (renderNaiveTs y mo d h mi sec).dropLast ++ "+00:00".toList
      else renderNaiveTs y mo d h mi sec
    match fromIsoformat (replaceZ s1) with
    | some dt => some (dtInstant dt)
    | none =>
      match fromIsoformat ((s1.takeWhile (· ≠ '+')).takeWhile (· ≠ 'Z')) with
      | some dt => some (fieldsEpoch dt)
      | none => none) = some (fieldsEpoch ⟨y, mo, d, h, mi, sec, 0, none⟩)
  rw [hends]
  simp only [Bool.false_eq_true, if_false,
    replaceZ_of_no_Z (renderNaive_no_Z y mo d h mi sec), hiso]
  rfl

theorem parseTimestamp_renderZ (y mo d h mi sec : Nat)
    (hy1 : 1 ≤ y) (hy2 : y ≤ 9999) (hmo1 : 1 ≤ mo) (hmo2 : mo ≤ 12)
    (hd1 : 1 ≤ d) (hd2 : d ≤ daysInMonth y mo)
    (hh : h ≤ 23) (hmi : mi ≤ 59) (hsec : sec ≤ 59) :
    parseTimestamp (.str (renderZTs y mo d h mi sec))
      = some (fieldsEpoch ⟨y, mo, d, h, mi, sec, 0, none⟩) := by
  have hends : endsWith ['Z'] (renderZTs y mo d h mi sec) = true :=
    endsWith_last_eq _ _
  have hdrop : (renderZTs y mo d h mi sec).dropLast
      = renderNaiveTs y mo d h mi sec := by
    unfold renderZTs
    simp
  have hnoZ : ∀ c ∈ renderNaiveTs y mo d h mi sec ++ "+00:00".toList,
      c ≠ 'Z' := by
    intro c hc
    rw [List.mem_append] at hc
    rcases hc with hc | hc
    · exact renderNaive_no_Z y mo d h mi sec c hc
    · have hr : ("+00:00".toList) = ['+', '0', '0', ':', '0', '0'] := rfl
      rw [hr] at hc
      simp only [List.mem_cons, List.not_mem_nil, or_false] at hc
      rcases hc with rfl | rfl | rfl | rfl | rfl | rfl <;> decide
  have hiso : fromIsoformat (renderNaiveTs y mo d h mi sec
        ++ "+00:00".toList)
      = some ⟨y, mo, d, h, mi, sec, 0, some 0⟩ :=
    fromIsoformat_render y mo d h mi sec _ (some 0) hy1 hy2 hmo1 hmo2
      hd1 hd2 hh hmi hsec (by decide) (Or.inr ⟨"00:00".toList, by decide⟩)
  have hdt : dtInstant ⟨y, mo, d, h, mi, sec, 0, some 0⟩
      = fieldsEpoch ⟨y, mo, d, h, mi, sec, 0, none⟩ := by
    show fieldsEpoch ⟨y, mo, d, h, mi, sec, 0, some 0⟩ - ((0 : Int) : ℚ)
      = fieldsEpoch ⟨y, mo, d, h, mi, sec, 0, none⟩
    unfold fieldsEpoch
    norm_num
  show (let s1 := if endsWith ['Z'] (renderZTs y mo d h mi sec) = true
      then (renderZTs y mo d h mi sec).dropLast ++ "+00:00".toList
      else renderZTs y mo d h mi sec
    match fromIsoformat (replaceZ s1) with
    | some dt => some (dtInstant dt)
    | none =>
      match fromIsoformat ((s1.takeWhile (· ≠ '+')).takeWhile (· ≠ 'Z')) with
      | some dt => some (fieldsEpoch dt)
      | none => none) = some (fieldsEpoch ⟨y, mo, d, h, mi, sec, 0, none⟩)
  rw [hends]
  simp only [if_true, hdrop, replaceZ_of_no_Z hnoZ, hiso]
  rw [hdt]

theorem parseTimestamp_renderOffset (y mo d h mi sec oh om : Nat)
    (hy1 : 1 ≤ y) (hy2 : y ≤ 9999) (hmo1 : 1 ≤ mo) (hmo2 : mo ≤ 12)
    (hd1 : 1 ≤ d) (hd2 : d ≤ daysInMonth y mo)
    (hh : h ≤ 23) (hmi : mi ≤ 59) (hsec : sec ≤ 59)
    (hoh : oh ≤ 23) (hom : om ≤ 59) :
    parseTimestamp (.str (renderOffsetTs y mo d h mi sec oh om))
      = some (fieldsEpoch ⟨y, mo, d, h, mi, sec, 0, none⟩
          - (3600 * (oh : ℚ) + 60 * om)) := by
  have hconcat : renderOffsetTs y mo d h mi sec oh om
      = (renderNaiveTs y mo d h mi sec ++ '+' :: pad2 oh ++ ':'
          :: [digitChar (om / 10 % 10)]) ++ [digitChar (om % 10)] := by
    simp [renderOffsetTs, pad2]
  have hends : endsWith ['Z'] (renderOffsetTs y mo d h mi sec oh om)
      = false := by
    rw [hconcat]
    exact endsWith_last_ne
      ((char_ne_of_digit (digitChar_isDigit (by omega)) (by decide)).symm)
  have hnoZ : ∀ c ∈ renderOffsetTs y mo d h mi sec oh om, c ≠ 'Z' := by
    intro c hc
    simp only [renderOffsetTs, List.mem_append, List.mem_cons] at hc
    rcases hc with (hc | rfl | hc) | rfl | hc
    · exact renderNaive_no_Z y mo d h mi sec c hc
    · decide
    · exact char_ne_of_digit (mem_pad2_isDigit hc) (by decide)
    · decide
    · exact char_ne_of_digit (mem_pad2_isDigit hc) (by decide)
  have hiso : fromIsoformat (renderNaiveTs y mo d h mi sec
        ++ '+' :: (pad2 oh ++ ':' :: pad2 om))
      = some ⟨y, mo, d, h, mi, sec, 0,
          some ((3600 * oh + 60 * om : Nat) : Int)⟩ :=
    fromIsoformat_render y mo d h mi sec _ _ hy1 hy2 hmo1 hmo2
      hd1 hd2 hh hmi hsec (parseOffsetSuffix_pads oh om hoh hom)
      (Or.inr ⟨pad2 oh ++ ':' :: pad2 om, rfl⟩)
  have hdt : dtInstant ⟨y, mo, d, h, mi, sec, 0,
        some ((3600 * oh + 60 * om : Nat) : Int)⟩
      = fieldsEpoch ⟨y, mo, d, h, mi, sec, 0, none⟩
        - (3600 * (oh : ℚ) + 60 * om) := by
    show fieldsEpoch ⟨y, mo, d, h, mi, sec, 0,
        some ((3600 * oh + 60 * om : Nat) : Int)⟩
        - (((3600 * oh + 60 * om : Nat) : Int) : ℚ)
      = fieldsEpoch ⟨y, mo, d, h, mi, sec, 0, none⟩
        - (3600 * (oh : ℚ) + 60 * om)
    unfold fieldsEpoch
    push_cast
    ring
  rw [parseTimestamp_str]
  dsimp only
  rw [hends]
  simp only [Bool.false_eq_true, if_false, replaceZ_of_no_Z hnoZ]
  have hunf : renderOffsetTs y mo d h mi sec oh om
      = renderNaiveTs y mo d h mi sec ++ '+' :: (pad2 oh ++ ':' :: pad2 om) :=
    rfl
  rw [hunf]
  simp only [hiso]
  rw [hdt]

section
attribute [local semireducible] Rat.add Rat.mul Rat.sub Rat.inv

/-- C7 counterexample: parsing is neither the claimed shape-dichotomy nor
raise-free.  The string `2024-01-01T00:00:00Zx` is none of the four
accepted shapes (its trailing garbage makes it invalid ISO-8601), yet the
fallback prefix-parse accepts it; the integer epoch `10^18` ms is
rejected with no timestamp although the claim promises a datetime for
every integer input; and the integer epoch `10^22` ms overflows the
platform `time_t`, raising an `OverflowError` that
`except (ValueError, OSError)` does not catch. -/
theorem C7_counterexample_fallback_and_range :
    parseTimestamp (.str ("2024-01-01T00:00:00Zx".toList))
      = some 1704067200 ∧
    parseTimestamp (.num 1000000000000000000) = none ∧
    parseTimestampE (.num 10000000000000000000000) = .raises := by
  refine ⟨?_, ?_, ?_⟩ <;> decide

/-- C7 (amended): timestamp parsing accepts the four shapes with these
provisos.  An integer/float epoch (milliseconds) yields the instant when
`epoch/1000` lies in the supported year range; it yields no timestamp
(caught `ValueError`) when `epoch/1000` fits the platform `time_t` but
falls outside years 1-9999; and it raises an uncaught `OverflowError` —
the function is NOT raise-free — when `epoch/1000` exceeds the `time_t`
range.  ISO-8601 strings with trailing `Z`, with an explicit `+HH:MM`
offset, and with no offset (assumed UTC) all yield the denoted instant,
and string inputs never raise; `None` and non-string non-number values
yield no timestamp.  An unparsable string is NOT guaranteed to yield no
timestamp (see the counterexample). -/
theorem C7_timestamp_shapes (y mo d h mi sec oh om : Nat) (q : ℚ)
    (hy1 : 1 ≤ y) (hy2 : y ≤ 9999) (hmo1 : 1 ≤ mo) (hmo2 : mo ≤ 12)
    (hd1 : 1 ≤ d) (hd2 : d ≤ daysInMonth y mo)
    (hh : h ≤ 23) (hmi : mi ≤ 59) (hsec : sec ≤ 59)
    (hoh : oh ≤ 23) (hom : om ≤ 59)
    (hq1 : FROMTIMESTAMP_MIN ≤ q / 1000)
    (hq2 : q / 1000 < FROMTIMESTAMP_MAX) :
    parseTimestampE (.num q) = .ok (q / 1000) ∧
    parseTimestamp (.num q) = some (q / 1000) ∧
    (∀ r : ℚ, TIME_T_MIN ≤ r / 1000 → r / 1000 ≤ TIME_T_MAX →
      ¬ (FROMTIMESTAMP_MIN ≤ r / 1000 ∧ r / 1000 < FROMTIMESTAMP_MAX) →
      parseTimestampE (.num r) = .isNone) ∧
    (∀ r : ℚ, r / 1000 < TIME_T_MIN ∨ TIME_T_MAX < r / 1000 →
      parseTimestampE (.num r) = .raises) ∧
    parseTimestampE (.str (renderZTs y mo d h mi sec))
      = .ok (fieldsEpoch ⟨y, mo, d, h, mi, sec, 0, none⟩) ∧
    parseTimestampE (.str (renderOffsetTs y mo d h mi sec oh om))
      = .ok (fieldsEpoch ⟨y, mo, d, h, mi, sec, 0, none⟩
          - (3600 * (oh : ℚ) + 60 * om)) ∧
    parseTimestampE (.str (renderNaiveTs y mo d h mi sec))
      = .ok (fieldsEpoch ⟨y, mo, d, h, mi, sec, 0, none⟩) ∧
    (∀ t : Str, parseTimestampE (.str t) ≠ .raises) ∧
    parseTimestampE .nullV = .isNone ∧
    parseTimestampE .otherV = .isNone := by
  have hb1 : TIME_T_MIN ≤ FROMTIMESTAMP_MIN := by decide
  have hb2 : FROMTIMESTAMP_MAX ≤ TIME_T_MAX := by decide
  have hokE : parseTimestampE (.num q) = .ok (q / 1000) := by
    show fromtimestampUtcE (q / 1000) = .ok (q / 1000)
    unfold fromtimestampUtcE
    rw [if_neg (by rintro (hlt | hgt) <;> linarith),
      if_pos ⟨hq1, hq2⟩]
  refine ⟨hokE, ?_, ?_, ?_, ?_, ?_, ?_, ?_, rfl, rfl⟩
  · show fromtimestampUtc (q / 1000) = some (q / 1000)
    unfold fromtimestampUtc
    have : fromtimestampUtcE (q / 1000) = .ok (q / 1000) := hokE
    simp only [this]
  · intro r h1 h2 h3
    show fromtimestampUtcE (r / 1000) = .isNone
    unfold fromtimestampUtcE
    rw [if_neg (by rintro (hlt | hgt) <;> linarith), if_neg h3]
  · intro r hr
    show fromtimestampUtcE (r / 1000) = .raises
    unfold fromtimestampUtcE
    rw [if_pos hr]
  · show (match parseTimestamp (.str (renderZTs y mo d h mi sec)) with
      | some t => TsResult.ok t
      | none => TsResult.isNone)
      = .ok (fieldsEpoch ⟨y, mo, d, h, mi, sec, 0, none⟩)
    simp only [parseTimestamp_renderZ y mo d h mi sec hy1 hy2 hmo1 hmo2
      hd1 hd2 hh hmi hsec]
  · show (match parseTimestamp
        (.str (renderOffsetTs y mo d h mi sec oh om)) with
      | some t => TsResult.ok t
      | none => TsResult.isNone)
      = .ok (fieldsEpoch ⟨y, mo, d, h, mi, sec, 0, none⟩
          - (3600 * (oh : ℚ) + 60 * om))
    simp only [parseTimestamp_renderOffset y mo d h mi sec oh om hy1 hy2
      hmo1 hmo2 hd1 hd2 hh hmi hsec hoh hom]
  · show (match parseTimestamp (.str (renderNaiveTs y mo d h mi sec)) with
      | some t => TsResult.ok t
      | none => TsResult.isNone)
      = .ok (fieldsEpoch ⟨y, mo, d, h, mi, sec, 0, none⟩)
    simp only [parseTimestamp_renderNaive y mo d h mi sec hy1 hy2 hmo1
      hmo2 hd1 hd2 hh hmi hsec]
  · intro t
    show (match parseTimestamp (.str t) with
      | some u => TsResult.ok u
      | none => TsResult.isNone) ≠ .raises
    cases parseTimestamp (.str t) <;> simp

theorem C7_timestamp_shapes_witness :
    parseTimestamp (.num 1705321845000) = some (1705321845000 / 1000) ∧
    parseTimestampE (.num 1705321845000) = .ok (1705321845000 / 1000) ∧
    parseTimestampE (.str (renderZTs 2024 1 15 12 30 45))
      = .ok (fieldsEpoch ⟨2024, 1, 15, 12, 30, 45, 0, none⟩) ∧
    renderZTs 2024 1 15 12 30 45 = "2024-01-15T12:30:45Z".toList ∧
    fieldsEpoch ⟨2024, 1, 15, 12, 30, 45, 0, none⟩ = 1705321845 := by
  have h := C7_timestamp_shapes 2024 1 15 12 30 45 5 30 1705321845000
    (by decide) (by decide) (by decide) (by decide) (by decide) (by decide)
    (by decide) (by decide) (by decide) (by decide) (by decide)
    (by decide) (by decide)
  exact ⟨h.2.1, h.1, h.2.2.2.2.1, by decide, by decide⟩

end

end Claudescope
